import Mathlib

/-!
Verification of the Wildcard Trivia room/game coordinator.

This file gives a shallow embedding of the backend coordinator of the
wildcard-trivia repository (backend/apis/rooms.py together with the Redis
store in backend/storage/store.py) and proves the specified properties
about it.

Modelling conventions:
  - Machine-generated identities (uuid4 for rooms, players and questions,
    secrets.token_urlsafe for tokens) are modelled by a fresh counter
    nextId threaded through the server state; freshness of the generated
    values is what the Python libraries guarantee.
  - Timestamps (datetime.now) are modelled as natural numbers supplied by
    the caller of each operation.
  - The LLM question generator (generate_questions_with_llm) is an external
    collaborator; it is modelled as a function parameter, and every call to
    it is logged so that theorems can count generation calls.
  - Text-to-speech side effects (audio generation, commentary_ready
    broadcasts) never touch coordinator state in the source (they are
    wrapped in try/except and only write to an audio cache), so they are
    elided from the model.
  - Redis hashes, sets and lists are modelled by association lists kept in
    insertion order; a Redis sorted set read (zrevrange used by the
    leaderboard) is modelled as a stable sort by descending score.
-/

/-! ## Generic list helpers (stable sorts, association lists) -/

/-- Stable insertion into a descending-by-key sorted list: the inserted,
earlier element goes before any element of equal key. -/
def insertDescBy {α : Type} (f : α → Nat) (x : α) : List α → List α
  | [] => [x]
  | y :: ys => if f y ≤ f x then x :: y :: ys else y :: insertDescBy f x ys

/-- Stable sort by descending key, used for the leaderboard (zrevrange)
and the pair-award scan (sorted with key minus score). -/
def sortDescBy {α : Type} (f : α → Nat) : List α → List α
  | [] => []
  | x :: xs => insertDescBy f x (sortDescBy f xs)

/-- Stable insertion into an ascending-by-key sorted list. -/
def insertAscBy {α : Type} (f : α → Nat) (x : α) : List α → List α
  | [] => [x]
  | y :: ys => if f x ≤ f y then x :: y :: ys else y :: insertAscBy f x ys

/-- Stable sort by ascending key, used to order players by joined time and
questions by their index. -/
def sortAscBy {α : Type} (f : α → Nat) : List α → List α
  | [] => []
  | x :: xs => insertAscBy f x (sortAscBy f xs)

/-- Insertion into an ascending sorted list of strings. -/
def insertStrAsc (x : String) : List String → List String
  | [] => [x]
  | y :: ys => if x ≤ y then x :: y :: ys else y :: insertStrAsc x ys

/-- Sorted list of strings, modelling the Python sorted() call on the
members of a Redis topic set. -/
def sortStrAsc (l : List String) : List String := l.foldr insertStrAsc []

/-- Lookup in a Python-dict style association list, defaulting to 0
(dict.get(key, 0)). -/
def dictGetD (d : List (String × Nat)) (k : String) : Nat :=
  match d.find? (fun e => e.1 == k) with
  | some e => e.2
  | none => 0

/-- Write to a Python-dict style association list: replace in place when
the key is present, append otherwise (Python dicts keep insertion order). -/
def dictSet (d : List (String × Nat)) (k : String) (v : Nat) : List (String × Nat) :=
  if d.any (fun e => e.1 == k) then
    d.map (fun e => if e.1 == k then (k, v) else e)
  else d ++ [(k, v)]

/-- Whitespace characters removed by the Python str.strip() calls of the
source (space, tab, line feed, carriage return, vertical tab, form feed). -/
def isPySpace (c : Char) : Bool :=
  c == ' ' || c == '\t' || c == '\n' || c == '\r' || c == '\x0b' || c == '\x0c'

/-- Python str.lower(): lowercase character by character (the option texts
and submitted answers in scope are ASCII, where Char.toLower coincides
with the Python lowering). -/
def plower (s : String) : String := ⟨s.data.map Char.toLower⟩

/-- Python str.strip(): remove leading and trailing whitespace. -/
def pstrip (s : String) : String :=
  ⟨List.rdropWhile isPySpace (s.data.dropWhile isPySpace)⟩

theorem pstrip_idem (s : String) : pstrip (pstrip s) = pstrip s := by
  unfold pstrip
  have hm : (s.data.dropWhile isPySpace).dropWhile isPySpace =
      s.data.dropWhile isPySpace := List.dropWhile_idempotent _ _
  set m := s.data.dropWhile isPySpace with hmdef
  have hr : (List.rdropWhile isPySpace m).dropWhile isPySpace =
      List.rdropWhile isPySpace m := by
    rcases hpre : List.rdropWhile isPySpace m with _ | ⟨a, t⟩
    · rfl
    · have hprefix : List.rdropWhile isPySpace m <+: m := List.rdropWhile_prefix _ _
      rw [hpre] at hprefix
      obtain ⟨rest, hrest⟩ := hprefix
      have hma : ∃ m', m = a :: m' := ⟨t ++ rest, by rw [← hrest]; simp⟩
      obtain ⟨m', hm'⟩ := hma
      have hnot : isPySpace a = false := by
        have := congrArg (List.dropWhile isPySpace) hm'.symm
        rw [hm] at this
        by_contra hcon
        have ha : isPySpace a = true := by
          cases hcase : isPySpace a
          · exact absurd hcase hcon
          · rfl
        rw [List.dropWhile_cons_of_pos ha] at this
        have hlen := congrArg List.length this
        have hle := (List.dropWhile_sublist (l := m') isPySpace).length_le
        rw [hm'] at hlen
        simp only [List.length_cons] at hlen
        omega
      rw [List.dropWhile_cons_of_neg (by simp [hnot])]
  rw [hr, List.rdropWhile_idempotent]

/-! ## Data model (backend/storage/models.py, as used by the store) -/

/-- A room record as stored in the Redis room hash. -/
structure Room where
  roomId : Nat
  name : String
  hostName : String
  hostToken : String
  topics : List String
  questionsPerRound : Nat
  timePerQuestion : Nat
  numRounds : Nat
  currentRound : Nat
  status : String
  createdAt : Nat
  startedAt : Option Nat
deriving DecidableEq

/-- A player record as stored in the Redis player hash. -/
structure Player where
  playerId : Nat
  roomId : Nat
  playerName : String
  playerToken : String
  score : Nat
  topicScore : List (String × Nat)
  joinedAt : Nat
deriving DecidableEq

/-- A question record as stored in the per-round Redis question list. -/
structure Question where
  questionId : Nat
  roomId : Nat
  round : Nat
  questionText : String
  topics : List String
  options : List String
  correctAnswer : Nat
  explanation : Option String
  questionIndex : Nat
deriving DecidableEq

/-- A question as returned by the external question generator. -/
structure GenQuestion where
  question : String
  topics : List String
  options : List String
  correctAnswer : Nat
  explanation : Option String
deriving DecidableEq

/-- The whole persistent state of the coordinator: every Redis key family
used by backend/storage/store.py, plus the fresh-identity counter and a
ghost log of score awards used to state the score invariant. -/
structure ServerState where
  rooms : List Room
  players : List Player
  questions : List Question
  topicSets : List ((Nat × Nat) × List String)
  answered : List ((Nat × Nat) × List Nat)
  groupCorrect : List Nat
  scoreLog : List (Nat × Nat)
  nextId : Nat
deriving DecidableEq

/-- The empty server state (a fresh Redis database). -/
def initState : ServerState := ⟨[], [], [], [], [], [], [], 0⟩

/-! ## Store layer (backend/storage/store.py) -/

/-- RoomStore.get_room: fetch the room hash by id. -/
def RoomStore.get_room (st : ServerState) (rid : Nat) : Option Room :=
  st.rooms.find? (fun r => r.roomId == rid)

/-- RoomStore.update_room_status: overwrite status and, when provided,
started_at; raises ValueError when the room key does not exist. -/
def RoomStore.update_room_status (st : ServerState) (rid : Nat) (status : String)
    (startedAt : Option Nat) : Except String ServerState :=
  match RoomStore.get_room st rid with
  | none => .error "Room not found"
  | some _ =>
    .ok { st with rooms := st.rooms.map (fun r =>
      if r.roomId == rid then
        { r with status := status, startedAt := startedAt.or r.startedAt }
      else r) }

/-- RoomStore.update_room_round: overwrite current_round and, when
provided, started_at (the new timer baseline). -/
def RoomStore.update_room_round (st : ServerState) (rid : Nat) (currentRound : Nat)
    (startedAt : Option Nat) : Except String ServerState :=
  match RoomStore.get_room st rid with
  | none => .error "Room not found"
  | some _ =>
    .ok { st with rooms := st.rooms.map (fun r =>
      if r.roomId == rid then
        { r with currentRound := currentRound, startedAt := startedAt.or r.startedAt }
      else r) }

/-- PlayerStore.create_player: unconditionally create a player record in
the room (the Redis store performs no name-uniqueness check), add it to
the room player set and the score sorted set with score 0, and register
the token mapping. Fresh uuid and token are modelled by the nextId
counter. -/
def PlayerStore.create_player (st : ServerState) (rid : Nat) (playerName : String)
    (now : Nat) : Except String (ServerState × Player) :=
  match RoomStore.get_room st rid with
  | none => .error "Room not found"
  | some _ =>
    let p : Player :=
      ⟨st.nextId, rid, playerName, "tok" ++ toString st.nextId, 0, [], now⟩
    .ok ({ st with players := st.players ++ [p], nextId := st.nextId + 1 }, p)

/-- PlayerStore.get_players_by_room: all players of the room, sorted by
joined_at (the underlying Redis set is unordered, so the store sorts). -/
def PlayerStore.get_players_by_room (st : ServerState) (rid : Nat) : List Player :=
  sortAscBy (fun p => p.joinedAt) (st.players.filter (fun p => p.roomId == rid))

/-- PlayerStore.get_player_by_token: resolve the token mapping. -/
def PlayerStore.get_player_by_token (st : ServerState) (tok : String) : Option Player :=
  st.players.find? (fun p => p.playerToken == tok)

/-- PlayerStore.get_player_by_id: fetch the player hash by id. -/
def PlayerStore.get_player_by_id (st : ServerState) (pid : Nat) : Option Player :=
  st.players.find? (fun p => p.playerId == pid)

/-- The per-topic accumulation loop of update_player_score: for every
listed topic, add the points to its entry of the topic-score dict. -/
def bumpTopicScores (d : List (String × Nat)) (topics : List String)
    (points : Nat) : List (String × Nat) :=
  topics.foldl (fun acc t => dictSet acc t (dictGetD acc t + points)) d

/-- PlayerStore.update_player_score: add points to the stored score, and
when a non-empty topic list is given and points are positive, add the same
points to the per-topic score of every listed topic. -/
def PlayerStore.update_player_score (st : ServerState) (pid : Nat) (points : Nat)
    (topics : List String) : Except String (ServerState × Player) :=
  match PlayerStore.get_player_by_id st pid with
  | none => .error "Player not found"
  | some pl =>
    let newScore := pl.score + points
    let newTopicScore :=
      if topics ≠ [] ∧ 0 < points then bumpTopicScores pl.topicScore topics points
      else pl.topicScore
    let pl' := { pl with score := newScore, topicScore := newTopicScore }
    .ok ({ st with players := st.players.map (fun q =>
            if q.playerId == pid then pl' else q) }, pl')

/-- PlayerStore.get_leaderboard: players of the room ordered by descending
score. The source reads the Redis score sorted set with zrevrange; the
tie order among equal scores is modelled as insertion order. -/
def PlayerStore.get_leaderboard (st : ServerState) (rid : Nat) : List Player :=
  sortDescBy (fun p => p.score) (st.players.filter (fun p => p.roomId == rid))

/-- The raw topic set stored for a room and round. -/
def TopicStore.topic_set (st : ServerState) (rid round : Nat) : List String :=
  match st.topicSets.find? (fun e => e.1 == (rid, round)) with
  | some e => e.2
  | none => []

/-- TopicStore.add_topic: sadd of the stripped topic into the per-round
topic set (set semantics collapse duplicates; the submitting player id is
not stored). Raises ValueError when the room does not exist. -/
def TopicStore.add_topic (st : ServerState) (rid : Nat) (topic : String)
    (round : Nat) : Except String ServerState :=
  match RoomStore.get_room st rid with
  | none => .error "Room not found"
  | some _ =>
    let s := TopicStore.topic_set st rid round
    let s' := if pstrip topic ∈ s then s else s ++ [pstrip topic]
    .ok { st with topicSets :=
      if st.topicSets.any (fun e => e.1 == (rid, round)) then
        st.topicSets.map (fun e => if e.1 == (rid, round) then ((rid, round), s') else e)
      else st.topicSets ++ [((rid, round), s')] }

/-- TopicStore.get_topics: the sorted members of the per-round topic set,
with empty strings filtered out. -/
def TopicStore.get_topics (st : ServerState) (rid round : Nat) : List String :=
  sortStrAsc ((TopicStore.topic_set st rid round).filter (fun t => t ≠ ""))

/-- QuestionStore.create_questions, question construction: one stored
question per generated question, with fresh ids and ordinal indices. -/
def buildQuestions (rid round : Nat) : List GenQuestion → Nat → Nat → List Question
  | [], _, _ => []
  | g :: rest, nid, idx =>
    ⟨nid, rid, round, g.question, g.topics, g.options, g.correctAnswer,
      g.explanation, idx⟩ :: buildQuestions rid round rest (nid + 1) (idx + 1)

/-- QuestionStore.create_questions: rpush every built question onto the
per-round question list. -/
def QuestionStore.create_questions (st : ServerState) (rid round : Nat)
    (gs : List GenQuestion) : ServerState × List Question :=
  let qs := buildQuestions rid round gs st.nextId 0
  ({ st with questions := st.questions ++ qs, nextId := st.nextId + gs.length }, qs)

/-- QuestionStore.get_questions_by_room_and_round: the per-round question
list of the room, sorted by question_index. -/
def QuestionStore.get_questions_by_room_and_round (st : ServerState) (rid round : Nat) :
    List Question :=
  sortAscBy (fun q => q.questionIndex)
    (st.questions.filter (fun q => q.roomId == rid && q.round == round))

/-- QuestionStore.get_questions_by_room: the questions of the current
round of the room (empty when the room does not exist). -/
def QuestionStore.get_questions_by_room (st : ServerState) (rid : Nat) : List Question :=
  match RoomStore.get_room st rid with
  | none => []
  | some room => QuestionStore.get_questions_by_room_and_round st rid room.currentRound

/-- The answered set of a question: player ids that already answered. -/
def answered_set (st : ServerState) (rid qid : Nat) : List Nat :=
  match st.answered.find? (fun e => e.1 == (rid, qid)) with
  | some e => e.2
  | none => []

/-- The effective quorum total used by the answered-set check: at least
one player is required even when the room reports zero players. -/
def effectiveTotalPlayers (totalPlayers : Nat) : Nat := max 1 totalPlayers

/-- The answered-set quorum condition of
QuestionStore.record_answer_and_check_all. -/
def allAnsweredCheck (answeredCount totalPlayers : Nat) : Bool :=
  decide (effectiveTotalPlayers totalPlayers ≤ answeredCount)

/-- QuestionStore.record_answer_and_check_all: sadd the player into the
answered set of the question, then report whether the set now covers the
effective player total of the room. -/
def QuestionStore.record_answer_and_check_all (st : ServerState) (rid qid pid : Nat) :
    ServerState × Bool :=
  let s := answered_set st rid qid
  let s' := if pid ∈ s then s else s ++ [pid]
  let st' := { st with answered :=
    (if st.answered.any (fun e => e.1 == (rid, qid)) then
      st.answered.map (fun e => if e.1 == (rid, qid) then ((rid, qid), s') else e)
    else st.answered ++ [((rid, qid), s')]) }
  let totalPlayers := (PlayerStore.get_players_by_room st' rid).length
  (st', allAnsweredCheck s'.length totalPlayers)

/-- Modelled from the spec: QuestionStore.record_question_group_correct is
called by submit_answer but is not defined under the provided sources.
Per the spec data model, a group-correct flag per question records whether
any player answered it correctly; marking is modelled as adding the
question id to a flag set. -/
def QuestionStore.record_question_group_correct (st : ServerState) (qid : Nat) :
    ServerState :=
  if qid ∈ st.groupCorrect then st
  else { st with groupCorrect := st.groupCorrect ++ [qid] }

/-- Modelled from the spec: QuestionStore.get_questions_group_correct_count
is called by the game-stats computation but is not defined under the
provided sources. Per the spec, it is the count of questions of the room
whose group-correct flag is set. -/
def QuestionStore.get_questions_group_correct_count (st : ServerState) (rid : Nat) : Nat :=
  (st.questions.filter (fun q =>
    q.roomId == rid && st.groupCorrect.contains q.questionId)).length

/-! ## API layer (backend/apis/rooms.py) -/

/-- The error taxonomy of the HTTP layer: each constructor corresponds to
an HTTPException status code used by rooms.py (401, 403, 404, 400, 409,
500). -/
inductive ApiError where
  | unauthorized (detail : String)
  | forbidden (detail : String)
  | notFound (detail : String)
  | badRequest (detail : String)
  | conflict (detail : String)
  | internal (detail : String)
deriving DecidableEq

/-- The broadcast events emitted to the room socket group, in issuance
order. The commentary_ready events are elided (text-to-speech side
effects, wrapped in try/except in the source, never touch room state). -/
inductive Event where
  | playerJoined (playerId : Nat) (playerName : String)
  | gameStarted (startedAt : Nat) (currentRound : Nat) (questionsCount : Nat)
  | topicSubmitted (playerId : Nat) (playerName : String) (topic : String)
      (topics : List String) (submittedCount totalPlayers : Nat)
  | allTopicsSubmitted (topics : List String) (nextRound : Nat)
  | roundChanged (startedAt : Nat) (currentRound : Nat) (questionsCount : Nat)
  | answerSubmitted (playerId : Nat) (questionId : Nat) (score : Nat)
  | allAnswersSubmitted (questionId : Nat) (reviewStartedAt : Nat)
deriving DecidableEq

/-- A logged call to the external question generator: the topics passed
and the requested count. -/
def GenCall : Type := List String × Nat

instance : DecidableEq GenCall := instDecidableEqProd

/-- CreateRoomRequest. -/
structure CreateRoomRequest where
  name : String
  topics : List String
  questionsPerRound : Nat
  timePerQuestion : Nat
  numRounds : Nat
  sessionMode : String
deriving DecidableEq

/-- CreateRoomResponse. -/
structure CreateRoomResponse where
  roomId : Nat
  hostToken : String
deriving DecidableEq

/-- JoinRoomResponse. -/
structure JoinRoomResponse where
  playerId : Nat
  playerToken : String
deriving DecidableEq

/-- StartGameResponse. -/
structure StartGameResponse where
  success : Bool
  message : String
  questionsCount : Nat
  playerToken : Option String
deriving DecidableEq

/-- SubmitAnswerResponse. -/
structure SubmitAnswerResponse where
  success : Bool
  isCorrect : Bool
  correctAnswer : String
  points : Nat
  currentScore : Nat
deriving DecidableEq

/-- SubmitTopicResponse. -/
structure SubmitTopicResponse where
  success : Bool
  submittedCount : Nat
  totalPlayers : Nat
deriving DecidableEq

/-- Seed the round-1 topic set with the host-provided topics of a create
request: each is stripped and, when non-empty, added to round 1. -/
def seedTopics (st : ServerState) (rid : Nat) : List String → ServerState
  | [] => st
  | t :: rest =>
    let st' :=
      if pstrip t = "" then st
      else
        match TopicStore.add_topic st rid t (1 : Nat) with
        | .ok st2 => st2
        | .error _ => st
    seedTopics st' rid rest

/-- POST /api/rooms (create_room): create the room with a fresh id and
host token, seed round-1 topics with any host-provided topics, and create
a player for the host when the session mode is player. -/
def create_room (st : ServerState) (req : CreateRoomRequest) (now : Nat) :
    ServerState × CreateRoomResponse :=
  let rid := st.nextId
  let hostToken := "tok" ++ toString st.nextId
  let room : Room :=
    ⟨rid, req.name, req.name, hostToken, req.topics, req.questionsPerRound,
      req.timePerQuestion, req.numRounds, 1, "waiting", now, none⟩
  let st1 := { st with rooms := st.rooms ++ [room], nextId := st.nextId + 1 }
  let st2 := seedTopics st1 rid req.topics
  let st3 :=
    if req.sessionMode = "player" then
      match PlayerStore.create_player st2 rid req.name now with
      | .ok (st', _) => st'
      | .error _ => st2
    else st2
  (st3, ⟨rid, hostToken⟩)

/-- POST /api/rooms/id/join (join_room): join an existing waiting room
with a required non-empty topic; the player record is created and the
topic is added to round 1. -/
def join_room (st : ServerState) (rid : Nat) (playerName topic : String)
    (now : Nat) : Except ApiError (ServerState × JoinRoomResponse × List Event) :=
  match RoomStore.get_room st rid with
  | none => .error (.notFound "Room not found")
  | some room =>
    if room.status = "waiting" then
      if pstrip topic = "" then .error (.badRequest "Topic is required")
      else
        match PlayerStore.create_player st rid playerName now with
        | .error e => .error (.internal e)
        | .ok (st1, player) =>
          match TopicStore.add_topic st1 rid topic (1 : Nat) with
          | .error e => .error (.internal e)
          | .ok st2 =>
            .ok (st2, ⟨player.playerId, player.playerToken⟩,
              [.playerJoined player.playerId player.playerName])
    else .error (.badRequest "Room is no longer accepting players")

/-- POST /api/rooms/id/start (start_game): host-only; requires a waiting
room with at least one player and a non-empty topic source, generates the
round-1 questions, transitions the room to started and stamps started_at. -/
def start_game (st : ServerState) (rid : Nat) (hostToken : Option String)
    (gen : List String → Nat → List GenQuestion) (now : Nat) :
    Except ApiError (ServerState × StartGameResponse × List Event × List GenCall) :=
  match hostToken with
  | none => .error (.unauthorized "Host token required")
  | some htok =>
    match RoomStore.get_room st rid with
    | none => .error (.notFound "Room not found")
    | some room =>
      if room.hostToken = htok then
        if room.status = "waiting" then
          let players := PlayerStore.get_players_by_room st rid
          if players.isEmpty then
            .error (.badRequest "Cannot start game without players. Please wait for players to join.")
          else
            let collected := TopicStore.get_topics st rid (1 : Nat)
            let topicsToUse := if collected ≠ [] then collected else room.topics
            if topicsToUse.isEmpty then
              .error (.badRequest "No topics submitted. Please wait for players to submit topics.")
            else
              let sampleQuestions := gen topicsToUse room.questionsPerRound
              let st1 := (QuestionStore.create_questions st rid 1 sampleQuestions).1
              match RoomStore.update_room_status st1 rid "started" (some now) with
              | .error e => .error (.notFound e)
              | .ok st2 =>
                let hostPlayer := players.find? (fun p => p.playerName == room.hostName)
                .ok (st2,
                  ⟨true, "Game started successfully", sampleQuestions.length,
                    hostPlayer.map (fun p => p.playerToken)⟩,
                  [.gameStarted now 1 sampleQuestions.length],
                  [(topicsToUse, room.questionsPerRound)])
        else .error (.badRequest ("Room is already " ++ room.status))
      else .error (.forbidden "Invalid host token")

/-- The fixed point value awarded for a correct answer. -/
def pointsPerCorrectAnswer : Nat := 100

/-- POST /api/rooms/id/submit-answer (submit_answer): judge the submitted
text against the option at the correct index (case-insensitive,
whitespace-trimmed), award points and mark the group-correct flag on a
correct answer, record the player in the answered set, and report whether
every player of the room has now answered. -/
def submit_answer (st : ServerState) (rid : Nat) (playerToken : Option String)
    (qid : Nat) (answer : String) (now : Nat) :
    Except ApiError (ServerState × SubmitAnswerResponse × List Event) :=
  match playerToken with
  | none => .error (.unauthorized "Player token required")
  | some tok =>
    match RoomStore.get_room st rid with
    | none => .error (.notFound "Room not found")
    | some room =>
      if room.status = "started" then
        match PlayerStore.get_player_by_token st tok with
        | none => .error (.notFound "Player not found")
        | some player =>
          if player.roomId = rid then
            match (QuestionStore.get_questions_by_room st rid).find?
                (fun q => q.questionId == qid) with
            | none => .error (.notFound "Question not found")
            | some question =>
              match question.options.get? question.correctAnswer with
              | none => .error (.internal "correct_answer index out of range")
              | some correctAnswerOption =>
                let isCorrect : Bool :=
                  pstrip (plower answer) == pstrip (plower correctAnswerOption)
                let points := if isCorrect then pointsPerCorrectAnswer else 0
                match (if 0 < points then
                    (PlayerStore.update_player_score st player.playerId points
                      question.topics).map (fun x =>
                        (QuestionStore.record_question_group_correct x.1 qid,
                          x.2.score))
                  else .ok (st, player.score)) with
                | .error _ =>
                  .error (.badRequest "Invalid room ID or question ID")
                | .ok y =>
                  let st1 := y.1
                  let currentScore := y.2
                  let st2 := { st1 with scoreLog :=
                    (if 0 < points then st1.scoreLog ++ [(player.playerId, points)]
                     else st1.scoreLog) }
                  let ev0 : List Event :=
                    [.answerSubmitted player.playerId qid currentScore]
                  let st3 :=
                    (QuestionStore.record_answer_and_check_all st2 rid qid player.playerId).1
                  let allAnswered :=
                    (QuestionStore.record_answer_and_check_all st2 rid qid player.playerId).2
                  let ev :=
                    if allAnswered then ev0 ++ [.allAnswersSubmitted qid now] else ev0
                  .ok (st3,
                    ⟨true, isCorrect, correctAnswerOption, points, currentScore⟩, ev)
          else .error (.forbidden "Player does not belong to this room")
      else .error (.badRequest "Game is not in progress")

/-- The topic quorum condition of submit_topic: the round auto-advances
when the distinct submitted topics reach the player count (the comparison
from the source, with no lower bound applied to the player count). -/
def topicQuorumMet (submittedCount totalPlayers : Nat) : Bool :=
  decide (totalPlayers ≤ submittedCount)

/-- POST /api/rooms/id/submit-topic (submit_topic): record a topic for the
next round (current_round + 1) and, when the distinct-topic count reaches
the player count, generate the next-round questions, advance the round and
re-stamp started_at. No room-lifecycle status is checked. -/
def submit_topic (st : ServerState) (rid : Nat) (playerToken : Option String)
    (rawTopic : String) (gen : List String → Nat → List GenQuestion) (now : Nat) :
    Except ApiError (ServerState × SubmitTopicResponse × List Event × List GenCall) :=
  match playerToken with
  | none => .error (.unauthorized "Player token required")
  | some tok =>
    match RoomStore.get_room st rid with
    | none => .error (.notFound "Room not found")
    | some room =>
      match PlayerStore.get_player_by_token st tok with
      | none => .error (.notFound "Player not found")
      | some player =>
        if player.roomId = rid then
          let topic := pstrip rawTopic
          if topic = "" then .error (.badRequest "Topic cannot be empty")
          else if 50 < topic.length then
            .error (.badRequest "Topic must be 50 characters or less")
          else
            let nextRound := room.currentRound + 1
            match TopicStore.add_topic st rid topic nextRound with
            | .error e => .error (.internal e)
            | .ok st1 =>
              let topics := TopicStore.get_topics st1 rid nextRound
              let submittedCount := topics.length
              let totalPlayers := (PlayerStore.get_players_by_room st1 rid).length
              let ev0 : List Event :=
                [.topicSubmitted player.playerId player.playerName topic topics
                  submittedCount totalPlayers]
              if topicQuorumMet submittedCount totalPlayers then
                let sampleQuestions := gen topics room.questionsPerRound
                let st2 :=
                  (QuestionStore.create_questions st1 rid nextRound sampleQuestions).1
                match RoomStore.update_room_round st2 rid nextRound (some now) with
                | .error e => .error (.internal e)
                | .ok st3 =>
                  .ok (st3, ⟨true, submittedCount, totalPlayers⟩,
                    ev0 ++ [.allTopicsSubmitted topics nextRound,
                      .roundChanged now nextRound sampleQuestions.length],
                    [(topics, room.questionsPerRound)])
              else
                .ok (st1, ⟨true, submittedCount, totalPlayers⟩, ev0, [])
        else .error (.forbidden "Player does not belong to this room")

/-! ## Game stats and awards (rooms.py, compute_game_stats_and_awards) -/

/-- An award entry of the game-over screen. -/
structure GameStatsAward where
  playerIds : List Nat
  playerNames : List String
  awardName : String
  topic : Option String
deriving DecidableEq

/-- GameStatsResponse. -/
structure GameStatsResponse where
  groupCorrectRate : Nat
  totalQuestions : Nat
  triviComment : String
  awards : List GameStatsAward
deriving DecidableEq

/-- Python round() on the exact rational n / d (d positive): round half to
even. The source computes round(count / total * 100) on floats; on the
small integer ratios involved the float value is the exact rational. -/
def pyRoundNat (n d : Nat) : Nat :=
  let q := n / d
  let r := n % d
  if 2 * r < d then q
  else if d < 2 * r then q + 1
  else if q % 2 = 0 then q else q + 1

/-- The three cycling topic-expert award titles. -/
def topicTitle (idx : Nat) (topic : String) : String :=
  match idx % 3 with
  | 0 => "Subject Matter authority on " ++ topic
  | 1 => "Knowing the most about " ++ topic
  | _ => "The \"One-Man\" Encyclopedia on " ++ topic

/-- Append a per-topic score entry to the topic map (Python dict of topic
to list of player-score pairs, in first-seen topic order). -/
def addTopicEntry (acc : List (String × List (Player × Nat))) (t : String)
    (p : Player) (s : Nat) : List (String × List (Player × Nat)) :=
  if acc.any (fun e => e.1 == t) then
    acc.map (fun e => if e.1 == t then (e.1, e.2 ++ [(p, s)]) else e)
  else acc ++ [(t, [(p, s)])]

/-- Build the topic map from the leaderboard players: iterate players in
leaderboard order and their per-topic scores in dict order. -/
def buildTopicScores (players : List Player) : List (String × List (Player × Nat)) :=
  players.foldl (fun acc p =>
    p.topicScore.foldl (fun acc2 e => addTopicEntry acc2 e.1 p e.2) acc) []

/-- One topic-expert award per topic: all players tied at the topic best
score, provided it is positive; the title cycles with the topic index. -/
def expertAwards (tscores : List (String × List (Player × Nat))) :
    List GameStatsAward :=
  tscores.enum.filterMap (fun e =>
    let idx := e.1
    let t := e.2.1
    let lst := e.2.2
    if lst.isEmpty then none
    else
      let bestScore := (lst.map (fun x => x.2)).foldl max 0
      let winners := (lst.filter (fun x => x.2 == bestScore && 0 < x.2)).map
        (fun x => x.1)
      if winners.isEmpty then none
      else some ⟨winners.map (fun p => p.playerId),
        winners.map (fun p => p.playerName), topicTitle idx t, some t⟩)

/-- Absolute difference of two scores. -/
def pairDist (a b : Nat) : Nat := if a ≤ b then b - a else a - b

/-- The scan of the pair-award loops: the first pair (i, j), i before j in
the score-sorted list, whose scores are both positive and within 100
points of each other; the double break of the source stops at the first
qualifying pair. -/
def findSharedPair : List (Player × Nat) → Option (Player × Player)
  | [] => none
  | x :: xs =>
    match xs.find? (fun y =>
        decide (0 < x.2) && decide (0 < y.2) && decide (pairDist x.2 y.2 ≤ 100)) with
    | some y => some (x.1, y.1)
    | none => findSharedPair xs

/-- The shared-interest pair awards: only when the room has at least three
players and the topic map is non-empty; at most one pair per topic with at
least two entries, scanning in descending score order. -/
def pairAwards (players : List Player)
    (tscores : List (String × List (Player × Nat))) : List GameStatsAward :=
  if 3 ≤ players.length ∧ tscores ≠ [] then
    tscores.filterMap (fun e =>
      let t := e.1
      let lst := e.2
      if lst.length < 2 then none
      else
        match findSharedPair (sortDescBy (fun x => x.2) lst) with
        | some (a, b) =>
          some ⟨[a.playerId, b.playerId], [a.playerName, b.playerName],
            "Sharing a love for " ++ t, some t⟩
        | none => none)
  else []

/-- compute_game_stats_and_awards: the group correct rate (rounded
percentage of group-correct questions over numRounds times
questionsPerRound, clamped to the range 0 to 100) and the award list
(wildcard king, topic experts, shared pairs) truncated to 3 awards for at
most 3 players and 5 otherwise. -/
def compute_game_stats (st : ServerState) (rid : Nat) :
    Except ApiError GameStatsResponse :=
  match RoomStore.get_room st rid with
  | none => .error (.notFound "Room not found")
  | some room =>
    let totalQuestions := room.numRounds * room.questionsPerRound
    let groupCorrectCount := QuestionStore.get_questions_group_correct_count st rid
    let rate0 :=
      if 0 < totalQuestions then pyRoundNat (100 * groupCorrectCount) totalQuestions
      else 0
    let rate := min 100 (max 0 rate0)
    let comment := "Your group nailed " ++ toString rate ++
      "% of all questions Trivi came up with. Nice team work!"
    let players := PlayerStore.get_leaderboard st rid
    if players.isEmpty then
      .ok ⟨rate, totalQuestions, comment, []⟩
    else
      let maxScore := (players.map (fun p => p.score)).foldl max 0
      let kings := players.filter (fun p => p.score == maxScore)
      let kingAwards : List GameStatsAward :=
        if kings.isEmpty then []
        else [⟨kings.map (fun p => p.playerId), kings.map (fun p => p.playerName),
          "The Wildcard King", none⟩]
      let tscores := buildTopicScores players
      let awards := kingAwards ++ expertAwards tscores ++ pairAwards players tscores
      let maxAwards := if players.length ≤ 3 then 3 else 5
      .ok ⟨rate, totalQuestions, comment, awards.take maxAwards⟩

/-! ## Operation traces -/

/-- One inbound coordinator request, with all external inputs (identifiers
to act on, request payloads, the generator behaviour, the clock) resolved. -/
inductive Op where
  | createRoom (req : CreateRoomRequest) (now : Nat)
  | joinRoom (rid : Nat) (playerName topic : String) (now : Nat)
  | startGame (rid : Nat) (hostToken : Option String)
      (gen : List String → Nat → List GenQuestion) (now : Nat)
  | submitAnswer (rid : Nat) (playerToken : Option String) (qid : Nat)
      (answer : String) (now : Nat)
  | submitTopic (rid : Nat) (playerToken : Option String) (rawTopic : String)
      (gen : List String → Nat → List GenQuestion) (now : Nat)

/-- Apply one request to the state: a rejected request leaves the state
unchanged (every store mutation of the source happens after its
validations have passed). -/
def applyOp (st : ServerState) : Op → ServerState
  | .createRoom req now => (create_room st req now).1
  | .joinRoom rid name topic now =>
    match join_room st rid name topic now with
    | .ok out => out.1
    | .error _ => st
  | .startGame rid tok gen now =>
    match start_game st rid tok gen now with
    | .ok out => out.1
    | .error _ => st
  | .submitAnswer rid tok qid ans now =>
    match submit_answer st rid tok qid ans now with
    | .ok out => out.1
    | .error _ => st
  | .submitTopic rid tok topic gen now =>
    match submit_topic st rid tok topic gen now with
    | .ok out => out.1
    | .error _ => st

/-- Apply a sequence of requests in order. -/
def applyOps (st : ServerState) (ops : List Op) : ServerState :=
  ops.foldl applyOp st

/-! ## Helper lemmas about the list utilities -/

theorem length_insertStrAsc (x : String) (l : List String) :
    (insertStrAsc x l).length = l.length + 1 := by
  induction l with
  | nil => rfl
  | cons y ys ih =>
    by_cases h : x ≤ y <;> simp [insertStrAsc, h, ih]

theorem length_sortStrAsc (l : List String) :
    (sortStrAsc l).length = l.length := by
  induction l with
  | nil => rfl
  | cons y ys ih =>
    simp only [sortStrAsc, List.foldr] at ih ⊢
    rw [length_insertStrAsc, ih, List.length_cons]

theorem mem_insertStrAsc {x t : String} {l : List String} :
    t ∈ insertStrAsc x l ↔ t = x ∨ t ∈ l := by
  induction l with
  | nil => simp [insertStrAsc]
  | cons y ys ih =>
    by_cases h : x ≤ y
    · simp [insertStrAsc, h]
    · simp only [insertStrAsc, if_neg h, List.mem_cons, ih]
      tauto

theorem mem_sortStrAsc {t : String} {l : List String} :
    t ∈ sortStrAsc l ↔ t ∈ l := by
  induction l with
  | nil => simp [sortStrAsc]
  | cons y ys ih =>
    simp only [sortStrAsc, List.foldr] at ih ⊢
    rw [mem_insertStrAsc, List.mem_cons, ih]

theorem length_insertAscBy {α : Type} (f : α → Nat) (x : α) (l : List α) :
    (insertAscBy f x l).length = l.length + 1 := by
  induction l with
  | nil => rfl
  | cons y ys ih =>
    by_cases h : f x ≤ f y <;> simp [insertAscBy, h, ih]

theorem length_sortAscBy {α : Type} (f : α → Nat) (l : List α) :
    (sortAscBy f l).length = l.length := by
  induction l with
  | nil => rfl
  | cons y ys ih => rw [sortAscBy, length_insertAscBy, ih, List.length_cons]

theorem mem_insertAscBy {α : Type} {f : α → Nat} {x t : α} {l : List α} :
    t ∈ insertAscBy f x l ↔ t = x ∨ t ∈ l := by
  induction l with
  | nil => simp [insertAscBy]
  | cons y ys ih =>
    by_cases h : f x ≤ f y
    · simp [insertAscBy, h]
    · simp only [insertAscBy, if_neg h, List.mem_cons, ih]
      tauto

theorem mem_sortAscBy {α : Type} {f : α → Nat} {t : α} {l : List α} :
    t ∈ sortAscBy f l ↔ t ∈ l := by
  induction l with
  | nil => simp [sortAscBy]
  | cons y ys ih =>
    rw [sortAscBy, mem_insertAscBy, List.mem_cons, ih]

theorem length_insertDescBy {α : Type} (f : α → Nat) (x : α) (l : List α) :
    (insertDescBy f x l).length = l.length + 1 := by
  induction l with
  | nil => rfl
  | cons y ys ih =>
    by_cases h : f y ≤ f x <;> simp [insertDescBy, h, ih]

theorem length_sortDescBy {α : Type} (f : α → Nat) (l : List α) :
    (sortDescBy f l).length = l.length := by
  induction l with
  | nil => rfl
  | cons y ys ih => rw [sortDescBy, length_insertDescBy, ih, List.length_cons]

theorem mem_insertDescBy {α : Type} {f : α → Nat} {x t : α} {l : List α} :
    t ∈ insertDescBy f x l ↔ t = x ∨ t ∈ l := by
  induction l with
  | nil => simp [insertDescBy]
  | cons y ys ih =>
    by_cases h : f y ≤ f x
    · simp [insertDescBy, h]
    · simp only [insertDescBy, if_neg h, List.mem_cons, ih]
      tauto

theorem mem_sortDescBy {α : Type} {f : α → Nat} {t : α} {l : List α} :
    t ∈ sortDescBy f l ↔ t ∈ l := by
  induction l with
  | nil => simp [sortDescBy]
  | cons y ys ih =>
    rw [sortDescBy, mem_insertDescBy, List.mem_cons, ih]

theorem find?_map_replace_ne {k k' : String} {v : Nat}
    (es : List (String × Nat)) (h : k' ≠ k) :
    (es.map (fun e => if e.1 == k then (k, v) else e)).find? (fun e => e.1 == k') =
      es.find? (fun e => e.1 == k') := by
  induction es with
  | nil => rfl
  | cons e es ih =>
    by_cases he : e.1 = k
    · have h1 : (e.1 == k) = true := beq_iff_eq.mpr he
      have h2 : ((k : String) == k') = false := beq_false_of_ne (Ne.symm h)
      have h3 : (e.1 == k') = false := by rw [he]; exact h2
      simp only [List.map_cons, h1, if_true, List.find?_cons_of_neg, h2, h3,
        Bool.not_eq_true, ih]
    · have h1 : (e.1 == k) = false := beq_false_of_ne he
      simp only [List.map_cons, h1, Bool.false_eq_true, if_false]
      by_cases h4 : e.1 = k'
      · have h5 : (e.1 == k') = true := beq_iff_eq.mpr h4
        simp [List.find?_cons_of_pos, h5]
      · have h5 : (e.1 == k') = false := beq_false_of_ne h4
        simp only [List.find?_cons_of_neg, h5, Bool.not_eq_true, ih]

theorem find?_map_replace_self {k : String} {v : Nat}
    (es : List (String × Nat)) (h : es.any (fun e => e.1 == k) = true) :
    (es.map (fun e => if e.1 == k then (k, v) else e)).find? (fun e => e.1 == k) =
      some (k, v) := by
  induction es with
  | nil => simp at h
  | cons e es ih =>
    by_cases he : e.1 = k
    · have h1 : (e.1 == k) = true := beq_iff_eq.mpr he
      simp only [List.map_cons, h1, if_true]
      exact List.find?_cons_of_pos _ (by simp)
    · have h1 : (e.1 == k) = false := beq_false_of_ne he
      simp only [List.any_cons, h1, Bool.false_or] at h
      simp only [List.map_cons, h1, Bool.false_eq_true, if_false]
      rw [List.find?_cons_of_neg _ (by simp [h1])]
      exact ih h

theorem find?_eq_none_of_any_false {α : Type} {p : α → Bool} {l : List α}
    (h : l.any p = false) : l.find? p = none := by
  rw [List.find?_eq_none]
  intro a ha
  have := List.any_eq_false.mp h a ha
  simpa using this

theorem dictGetD_dictSet_self (d : List (String × Nat)) (k : String) (v : Nat) :
    dictGetD (dictSet d k v) k = v := by
  unfold dictSet dictGetD
  by_cases h : d.any (fun e => e.1 == k) = true
  · rw [if_pos h, find?_map_replace_self d h]
  · rw [if_neg h, List.find?_append,
      find?_eq_none_of_any_false (Bool.not_eq_true _ ▸ h)]
    simp

theorem dictGetD_dictSet_ne (d : List (String × Nat)) (k k' : String) (v : Nat)
    (h : k' ≠ k) : dictGetD (dictSet d k v) k' = dictGetD d k' := by
  unfold dictSet dictGetD
  by_cases hk : d.any (fun e => e.1 == k) = true
  · rw [if_pos hk, find?_map_replace_ne d h]
  · rw [if_neg hk, List.find?_append]
    have h2 : ((k : String) == k') = false := beq_false_of_ne (Ne.symm h)
    cases hfind : d.find? (fun e => e.1 == k') with
    | none => simp [h2]
    | some e => simp [hfind]

theorem bumpTopicScores_nil (d : List (String × Nat)) (points : Nat) :
    bumpTopicScores d [] points = d := rfl

theorem bumpTopicScores_cons (d : List (String × Nat)) (u : String)
    (us : List String) (points : Nat) :
    bumpTopicScores d (u :: us) points =
      bumpTopicScores (dictSet d u (dictGetD d u + points)) us points := rfl

theorem dictGetD_bump_of_not_mem {t : String} {topics : List String}
    (d : List (String × Nat)) (points : Nat) (h : t ∉ topics) :
    dictGetD (bumpTopicScores d topics points) t = dictGetD d t := by
  induction topics generalizing d with
  | nil => rfl
  | cons u us ih =>
    rw [bumpTopicScores_cons]
    have ht : t ≠ u := fun hh => h (hh ▸ List.mem_cons_self u us)
    have hus : t ∉ us := fun hh => h (List.mem_cons_of_mem u hh)
    rw [ih _ hus, dictGetD_dictSet_ne _ _ _ _ ht]

theorem dictGetD_bump_of_mem {t : String} {topics : List String}
    (d : List (String × Nat)) (points : Nat) (hnd : topics.Nodup)
    (h : t ∈ topics) :
    dictGetD (bumpTopicScores d topics points) t = dictGetD d t + points := by
  induction topics generalizing d with
  | nil => cases h
  | cons u us ih =>
    rw [bumpTopicScores_cons]
    rcases List.mem_cons.mp h with hu | hus
    · subst hu
      have hnotin : t ∉ us := (List.nodup_cons.mp hnd).1
      rw [dictGetD_bump_of_not_mem _ _ hnotin, dictGetD_dictSet_self]
    · have hnd' : us.Nodup := (List.nodup_cons.mp hnd).2
      have ht : t ≠ u := fun hh => (List.nodup_cons.mp hnd).1 (hh ▸ hus)
      rw [ih _ hnd' hus, dictGetD_dictSet_ne _ _ _ _ ht]

theorem sum_map_add_const (topics : List String) (f : String → Nat) (c : Nat) :
    (topics.map (fun t => f t + c)).sum = (topics.map f).sum + c * topics.length := by
  induction topics with
  | nil => simp
  | cons u us ih =>
    simp only [List.map_cons, List.sum_cons, ih, List.length_cons]
    ring

theorem sum_dictGetD_bump (d : List (String × Nat)) (topics : List String)
    (points : Nat) (hnd : topics.Nodup) :
    (topics.map (fun t => dictGetD (bumpTopicScores d topics points) t)).sum =
      (topics.map (fun t => dictGetD d t)).sum + points * topics.length := by
  have hmap : topics.map (fun t => dictGetD (bumpTopicScores d topics points) t) =
      topics.map (fun t => dictGetD d t + points) := by
    apply List.map_congr_left
    intro t ht
    exact dictGetD_bump_of_mem d points hnd ht
  rw [hmap, sum_map_add_const]

theorem find?_setKey_self {κ ν : Type} [BEq κ] [LawfulBEq κ]
    (es : List (κ × ν)) (k : κ) (v : ν) (h : es.any (fun e => e.1 == k) = true) :
    (es.map (fun e => if e.1 == k then (k, v) else e)).find? (fun e => e.1 == k) =
      some (k, v) := by
  induction es with
  | nil => simp at h
  | cons e es ih =>
    by_cases he : e.1 = k
    · have h1 : (e.1 == k) = true := beq_iff_eq.mpr he
      simp only [List.map_cons, h1, if_true]
      exact List.find?_cons_of_pos _ (by simp)
    · have h1 : (e.1 == k) = false := beq_false_of_ne he
      simp only [List.any_cons, h1, Bool.false_or] at h
      simp only [List.map_cons, h1, Bool.false_eq_true, if_false]
      rw [List.find?_cons_of_neg _ (by simp [h1])]
      exact ih h

theorem find?_setKey_ne {κ ν : Type} [BEq κ] [LawfulBEq κ]
    (es : List (κ × ν)) {k k' : κ} (v : ν) (h : k' ≠ k) :
    (es.map (fun e => if e.1 == k then (k, v) else e)).find? (fun e => e.1 == k') =
      es.find? (fun e => e.1 == k') := by
  induction es with
  | nil => rfl
  | cons e es ih =>
    by_cases he : e.1 = k
    · have h1 : (e.1 == k) = true := beq_iff_eq.mpr he
      have h2 : (k == k') = false := beq_false_of_ne (Ne.symm h)
      have h3 : (e.1 == k') = false := by rw [he]; exact h2
      simp only [List.map_cons, h1, if_true]
      rw [List.find?_cons_of_neg _ (by simp [h2])]
      rw [List.find?_cons_of_neg _ (by simp [h3])] at *
      exact ih
    · have h1 : (e.1 == k) = false := beq_false_of_ne he
      simp only [List.map_cons, h1, Bool.false_eq_true, if_false]
      by_cases h4 : e.1 = k'
      · have h5 : (e.1 == k') = true := beq_iff_eq.mpr h4
        rw [List.find?_cons_of_pos (p := fun x : κ × ν => x.1 == k') _ h5,
          List.find?_cons_of_pos (p := fun x : κ × ν => x.1 == k') _ h5]
      · have h5 : (e.1 == k') = false := beq_false_of_ne h4
        rw [List.find?_cons_of_neg _ (by simp [h5]),
          List.find?_cons_of_neg _ (by simp [h5])]
        exact ih

/-! ## Specification lemmas for the store operations -/

theorem add_topic_spec {st st' : ServerState} {rid round : Nat} {topic : String}
    (h : TopicStore.add_topic st rid topic round = .ok st') :
    TopicStore.topic_set st' rid round =
      (if pstrip topic ∈ TopicStore.topic_set st rid round then
        TopicStore.topic_set st rid round
      else TopicStore.topic_set st rid round ++ [pstrip topic]) ∧
    (∀ rid2 round2, (rid2, round2) ≠ (rid, round) →
      TopicStore.topic_set st' rid2 round2 = TopicStore.topic_set st rid2 round2) ∧
    st'.rooms = st.rooms ∧ st'.players = st.players ∧
    st'.questions = st.questions ∧ st'.answered = st.answered ∧
    st'.groupCorrect = st.groupCorrect ∧ st'.scoreLog = st.scoreLog ∧
    st'.nextId = st.nextId := by
  unfold TopicStore.add_topic at h
  cases hroom : RoomStore.get_room st rid with
  | none => rw [hroom] at h; exact absurd h (by simp)
  | some room =>
    rw [hroom] at h
    simp only [Except.ok.injEq] at h
    subst h
    refine ⟨?_, ?_, rfl, rfl, rfl, rfl, rfl, rfl, rfl⟩
    · by_cases hany : st.topicSets.any (fun e => e.1 == (rid, round)) = true
      · conv_lhs => unfold TopicStore.topic_set
        simp only [hany, if_true]
        rw [find?_setKey_self _ _ _ hany]
        rfl
      · have hempty : TopicStore.topic_set st rid round = [] := by
          unfold TopicStore.topic_set
          rw [find?_eq_none_of_any_false (Bool.not_eq_true _ ▸ hany)]
        conv_lhs => unfold TopicStore.topic_set
        simp only [hany, Bool.false_eq_true, if_false]
        rw [List.find?_append, find?_eq_none_of_any_false
          (Bool.not_eq_true _ ▸ hany)]
        simp only [Option.none_or]
        rw [List.find?_cons_of_pos (p := fun x : (Nat × Nat) × List String =>
          x.1 == (rid, round)) _ (by simp)]
        rw [hempty]
    · intro rid2 round2 hne
      by_cases hany : st.topicSets.any (fun e => e.1 == (rid, round)) = true
      · conv_lhs => unfold TopicStore.topic_set
        simp only [hany, if_true]
        rw [find?_setKey_ne _ _ hne]
        rfl
      · conv_lhs => unfold TopicStore.topic_set
        simp only [hany, Bool.false_eq_true, if_false]
        rw [List.find?_append]
        rw [List.find?_cons_of_neg (p := fun x : (Nat × Nat) × List String =>
          x.1 == (rid2, round2)) _ (by simp [beq_false_of_ne (Ne.symm hne)])]
        simp only [List.find?_nil, Option.or_none]
        rfl

theorem get_room_map (st : ServerState) (f : Room → Room)
    (hf : ∀ r, (f r).roomId = r.roomId) (rid : Nat) :
    RoomStore.get_room { st with rooms := st.rooms.map f } rid =
      (RoomStore.get_room st rid).map f := by
  unfold RoomStore.get_room
  simp only
  rw [List.find?_map]
  have hcomp : ((fun r : Room => r.roomId == rid) ∘ f) =
      (fun r : Room => r.roomId == rid) := by
    funext r
    simp [Function.comp, hf r]
  rw [hcomp]

theorem update_room_round_spec {st st' : ServerState} {rid cr : Nat}
    {sa : Option Nat} (h : RoomStore.update_room_round st rid cr sa = .ok st') :
    st'.players = st.players ∧ st'.questions = st.questions ∧
    st'.topicSets = st.topicSets ∧ st'.answered = st.answered ∧
    st'.groupCorrect = st.groupCorrect ∧ st'.scoreLog = st.scoreLog ∧
    st'.nextId = st.nextId ∧
    (∀ rid2, RoomStore.get_room st' rid2 =
      (RoomStore.get_room st rid2).map (fun r =>
        if r.roomId == rid then
          { r with currentRound := cr, startedAt := sa.or r.startedAt }
        else r)) := by
  unfold RoomStore.update_room_round at h
  cases hroom : RoomStore.get_room st rid with
  | none => rw [hroom] at h; exact absurd h (by simp)
  | some room =>
    rw [hroom] at h
    simp only [Except.ok.injEq] at h
    subst h
    refine ⟨rfl, rfl, rfl, rfl, rfl, rfl, rfl, ?_⟩
    intro rid2
    apply get_room_map
    intro r
    by_cases hr : (r.roomId == rid) = true <;> simp [hr]

theorem update_room_status_spec {st st' : ServerState} {rid : Nat}
    {status : String} {sa : Option Nat}
    (h : RoomStore.update_room_status st rid status sa = .ok st') :
    st'.players = st.players ∧ st'.questions = st.questions ∧
    st'.topicSets = st.topicSets ∧ st'.answered = st.answered ∧
    st'.groupCorrect = st.groupCorrect ∧ st'.scoreLog = st.scoreLog ∧
    st'.nextId = st.nextId ∧
    (∀ rid2, RoomStore.get_room st' rid2 =
      (RoomStore.get_room st rid2).map (fun r =>
        if r.roomId == rid then
          { r with status := status, startedAt := sa.or r.startedAt }
        else r)) := by
  unfold RoomStore.update_room_status at h
  cases hroom : RoomStore.get_room st rid with
  | none => rw [hroom] at h; exact absurd h (by simp)
  | some room =>
    rw [hroom] at h
    simp only [Except.ok.injEq] at h
    subst h
    refine ⟨rfl, rfl, rfl, rfl, rfl, rfl, rfl, ?_⟩
    intro rid2
    apply get_room_map
    intro r
    by_cases hr : (r.roomId == rid) = true <;> simp [hr]

theorem length_buildQuestions (rid round : Nat) (gs : List GenQuestion)
    (nid idx : Nat) : (buildQuestions rid round gs nid idx).length = gs.length := by
  induction gs generalizing nid idx with
  | nil => rfl
  | cons g rest ih =>
    simp only [buildQuestions, List.length_cons, ih]

theorem mem_buildQuestions {q : Question} {rid round : Nat}
    {gs : List GenQuestion} {nid idx : Nat}
    (h : q ∈ buildQuestions rid round gs nid idx) :
    q.roomId = rid ∧ q.round = round := by
  induction gs generalizing nid idx with
  | nil => cases h
  | cons g rest ih =>
    rcases List.mem_cons.mp h with hq | hq
    · subst hq; exact ⟨rfl, rfl⟩
    · exact ih hq

theorem answered_set_record {st : ServerState} {rid qid pid : Nat} :
    answered_set (QuestionStore.record_answer_and_check_all st rid qid pid).1 rid qid =
      (if pid ∈ answered_set st rid qid then answered_set st rid qid
       else answered_set st rid qid ++ [pid]) := by
  unfold QuestionStore.record_answer_and_check_all
  by_cases hany : st.answered.any (fun e => e.1 == (rid, qid)) = true
  · conv_lhs => unfold answered_set
    simp only [hany, if_true]
    rw [find?_setKey_self _ _ _ hany]
    rfl
  · have hempty : answered_set st rid qid = [] := by
      unfold answered_set
      rw [find?_eq_none_of_any_false (Bool.not_eq_true _ ▸ hany)]
    conv_lhs => unfold answered_set
    simp only [hany, Bool.false_eq_true, if_false]
    rw [List.find?_append, find?_eq_none_of_any_false
      (Bool.not_eq_true _ ▸ hany)]
    simp only [Option.none_or]
    rw [List.find?_cons_of_pos (p := fun x : (Nat × Nat) × List Nat =>
      x.1 == (rid, qid)) _ (by simp)]
    rw [hempty]

theorem record_answer_fields (st : ServerState) (rid qid pid : Nat) :
    (QuestionStore.record_answer_and_check_all st rid qid pid).1.rooms = st.rooms ∧
    (QuestionStore.record_answer_and_check_all st rid qid pid).1.players = st.players ∧
    (QuestionStore.record_answer_and_check_all st rid qid pid).1.questions = st.questions ∧
    (QuestionStore.record_answer_and_check_all st rid qid pid).1.topicSets = st.topicSets ∧
    (QuestionStore.record_answer_and_check_all st rid qid pid).1.groupCorrect = st.groupCorrect ∧
    (QuestionStore.record_answer_and_check_all st rid qid pid).1.scoreLog = st.scoreLog ∧
    (QuestionStore.record_answer_and_check_all st rid qid pid).1.nextId = st.nextId := by
  unfold QuestionStore.record_answer_and_check_all
  exact ⟨rfl, rfl, rfl, rfl, rfl, rfl, rfl⟩

theorem record_answer_bool (st : ServerState) (rid qid pid : Nat) :
    (QuestionStore.record_answer_and_check_all st rid qid pid).2 =
      allAnsweredCheck
        (if pid ∈ answered_set st rid qid then answered_set st rid qid
         else answered_set st rid qid ++ [pid]).length
        (PlayerStore.get_players_by_room st rid).length := by
  rfl

theorem mem_get_players_by_room {st : ServerState} {rid : Nat} {p : Player} :
    p ∈ PlayerStore.get_players_by_room st rid ↔
      p ∈ st.players ∧ p.roomId = rid := by
  unfold PlayerStore.get_players_by_room
  rw [mem_sortAscBy, List.mem_filter]
  simp

theorem get_players_by_room_congr {st st' : ServerState}
    (h : st'.players = st.players) (rid : Nat) :
    PlayerStore.get_players_by_room st' rid =
      PlayerStore.get_players_by_room st rid := by
  unfold PlayerStore.get_players_by_room
  rw [h]

theorem length_get_players_by_room_map (st : ServerState) (f : Player → Player)
    (hf : ∀ p, (f p).roomId = p.roomId) (rid : Nat) :
    (PlayerStore.get_players_by_room
        { st with players := st.players.map f } rid).length =
      (PlayerStore.get_players_by_room st rid).length := by
  unfold PlayerStore.get_players_by_room
  rw [length_sortAscBy, length_sortAscBy, ← List.countP_eq_length_filter,
    ← List.countP_eq_length_filter]
  simp only
  rw [List.countP_map]
  apply List.countP_congr
  intro p _
  simp [Function.comp, hf p]

theorem mem_get_topics {st : ServerState} {rid round : Nat} {t : String} :
    t ∈ TopicStore.get_topics st rid round ↔
      t ∈ TopicStore.topic_set st rid round ∧ t ≠ "" := by
  unfold TopicStore.get_topics
  rw [mem_sortStrAsc, List.mem_filter]
  simp

theorem length_get_topics (st : ServerState) (rid round : Nat) :
    (TopicStore.get_topics st rid round).length =
      ((TopicStore.topic_set st rid round).filter (fun t => t ≠ "")).length := by
  unfold TopicStore.get_topics
  rw [length_sortStrAsc]

theorem get_topics_congr {st st' : ServerState} {rid round : Nat}
    (h : TopicStore.topic_set st' rid round = TopicStore.topic_set st rid round) :
    TopicStore.get_topics st' rid round = TopicStore.get_topics st rid round := by
  unfold TopicStore.get_topics
  rw [h]

/-! ## Inversion of a successful submit_topic call -/

theorem submit_topic_ok_inv {st : ServerState} {rid : Nat} {tok : Option String}
    {raw : String} {gen : List String → Nat → List GenQuestion} {now : Nat}
    {out : ServerState × SubmitTopicResponse × List Event × List GenCall}
    (h : submit_topic st rid tok raw gen now = .ok out) :
    ∃ t room player st1,
      tok = some t ∧
      RoomStore.get_room st rid = some room ∧
      PlayerStore.get_player_by_token st t = some player ∧
      player.roomId = rid ∧
      pstrip raw ≠ "" ∧
      ¬ 50 < (pstrip raw).length ∧
      TopicStore.add_topic st rid (pstrip raw) (room.currentRound + 1) = .ok st1 ∧
      out.2.1 = SubmitTopicResponse.mk true
        (TopicStore.get_topics st1 rid (room.currentRound + 1)).length
        (PlayerStore.get_players_by_room st1 rid).length ∧
      (if topicQuorumMet
          (TopicStore.get_topics st1 rid (room.currentRound + 1)).length
          (PlayerStore.get_players_by_room st1 rid).length then
        ∃ st3, RoomStore.update_room_round
            (QuestionStore.create_questions st1 rid (room.currentRound + 1)
              (gen (TopicStore.get_topics st1 rid (room.currentRound + 1))
                room.questionsPerRound)).1
            rid (room.currentRound + 1) (some now) = .ok st3 ∧
          out.1 = st3
      else out.1 = st1) := by
  unfold submit_topic at h
  cases tok with
  | none => exact absurd h (by simp)
  | some t =>
    simp only at h
    cases hroom : RoomStore.get_room st rid with
    | none => rw [hroom] at h; simp at h
    | some room =>
      rw [hroom] at h
      simp only at h
      cases hplayer : PlayerStore.get_player_by_token st t with
      | none => rw [hplayer] at h; simp at h
      | some player =>
        rw [hplayer] at h
        simp only at h
        by_cases hpr : player.roomId = rid
        case neg => rw [if_neg hpr] at h; simp at h
        case pos =>
        rw [if_pos hpr] at h
        by_cases hempty : pstrip raw = ""
        case pos => rw [if_pos hempty] at h; simp at h
        case neg =>
        rw [if_neg hempty] at h
        by_cases hlen : 50 < (pstrip raw).length
        case pos => rw [if_pos hlen] at h; simp at h
        case neg =>
        rw [if_neg hlen] at h
        cases hadd : TopicStore.add_topic st rid (pstrip raw)
            (room.currentRound + 1) with
        | error e => rw [hadd] at h; simp at h
        | ok st1 =>
          rw [hadd] at h
          simp only at h
          refine ⟨t, room, player, st1, rfl, (by first | exact hroom | rfl),
            (by first | exact hplayer | rfl), hpr, hempty, hlen,
            (by first | exact hadd | rfl), ?_, ?_⟩
          · by_cases hq : topicQuorumMet
                (TopicStore.get_topics st1 rid (room.currentRound + 1)).length
                (PlayerStore.get_players_by_room st1 rid).length = true
            · rw [if_pos hq] at h
              cases hupd : RoomStore.update_room_round
                  (QuestionStore.create_questions st1 rid (room.currentRound + 1)
                    (gen (TopicStore.get_topics st1 rid (room.currentRound + 1))
                      room.questionsPerRound)).1
                  rid (room.currentRound + 1) (some now) with
              | error e => rw [hupd] at h; simp at h
              | ok st3 =>
                rw [hupd] at h
                simp only [Except.ok.injEq] at h
                subst h
                rfl
            · rw [if_neg hq] at h
              simp only [Except.ok.injEq] at h
              subst h
              rfl
          · by_cases hq : topicQuorumMet
                (TopicStore.get_topics st1 rid (room.currentRound + 1)).length
                (PlayerStore.get_players_by_room st1 rid).length = true
            · rw [if_pos hq] at h
              rw [if_pos hq]
              cases hupd : RoomStore.update_room_round
                  (QuestionStore.create_questions st1 rid (room.currentRound + 1)
                    (gen (TopicStore.get_topics st1 rid (room.currentRound + 1))
                      room.questionsPerRound)).1
                  rid (room.currentRound + 1) (some now) with
              | error e => rw [hupd] at h; simp at h
              | ok st3 =>
                rw [hupd] at h
                simp only [Except.ok.injEq] at h
                subst h
                exact ⟨st3, rfl, rfl⟩
            · rw [if_neg hq] at h
              rw [if_neg hq]
              simp only [Except.ok.injEq] at h
              subst h
              rfl

theorem mem_topic_set_after_add {st st1 : ServerState} {rid round : Nat}
    {topic : String} (h : TopicStore.add_topic st rid topic round = .ok st1) :
    pstrip topic ∈ TopicStore.topic_set st1 rid round := by
  obtain ⟨hset, -, -, -, -, -, -, -, -⟩ := add_topic_spec h
  rw [hset]
  by_cases hmem : pstrip topic ∈ TopicStore.topic_set st rid round
  · rw [if_pos hmem]; exact hmem
  · rw [if_neg hmem]
    exact List.mem_append_right _ (List.mem_singleton_self _)

theorem mem_players_of_token {st : ServerState} {t : String} {player : Player}
    (h : PlayerStore.get_player_by_token st t = some player) :
    player ∈ st.players :=
  List.mem_of_find?_eq_some h

/-- C5 counterexample: the topic-submission quorum condition of the source
compares submittedCount to totalPlayers with no lower bound, so with zero
players it holds even at zero submissions; the effective threshold there
is 0, not 1 as the claim states for both checks. -/
theorem c5_counterexample : topicQuorumMet 0 0 = true := rfl

/-- C5 (amended): the answered-set quorum check applies the effective
threshold max 1 totalPlayers and therefore never holds with zero recorded
answers; the topic-submission quorum compares submittedCount directly to
totalPlayers with no floor, but every check that submit_topic actually
performs evaluates it at submittedCount at least 1 and totalPlayers at
least 1 (the reporting response carries the compared values), so no
advancement on zero evidence occurs. -/
theorem c5_quorum_thresholds :
    (∀ totalPlayers : Nat,
      effectiveTotalPlayers totalPlayers = max 1 totalPlayers ∧
      allAnsweredCheck 0 totalPlayers = false) ∧
    (∀ (st : ServerState) (rid : Nat) (tok : Option String) (raw : String)
      (gen : List String → Nat → List GenQuestion) (now : Nat)
      (out : ServerState × SubmitTopicResponse × List Event × List GenCall),
      submit_topic st rid tok raw gen now = .ok out →
      1 ≤ out.2.1.submittedCount ∧ 1 ≤ out.2.1.totalPlayers) := by
  constructor
  · intro totalPlayers
    refine ⟨rfl, ?_⟩
    simp only [allAnsweredCheck, effectiveTotalPlayers, decide_eq_false_iff_not]
    omega
  · intro st rid tok raw gen now out h
    obtain ⟨t, room, player, st1, -, -, hplayer, hpr, hempty, -, hadd,
      hresp, -⟩ := submit_topic_ok_inv h
    rw [hresp]
    constructor
    · have hmem : pstrip (pstrip raw) ∈
          TopicStore.topic_set st1 rid (room.currentRound + 1) :=
        mem_topic_set_after_add hadd
      rw [pstrip_idem] at hmem
      have : pstrip raw ∈ TopicStore.get_topics st1 rid (room.currentRound + 1) :=
        mem_get_topics.mpr ⟨hmem, hempty⟩
      exact List.length_pos.mpr (List.ne_nil_of_mem this)
    · obtain ⟨-, -, -, hplayers, -, -, -, -, -⟩ := add_topic_spec hadd
      have hp1 : player ∈ st1.players := by
        rw [hplayers]
        exact mem_players_of_token hplayer
      have : player ∈ PlayerStore.get_players_by_room st1 rid :=
        mem_get_players_by_room.mpr ⟨hp1, hpr⟩
      exact List.length_pos.mpr (List.ne_nil_of_mem this)

/-- A concrete waiting room with one player, used to exercise the amended
C5 statement at a concrete input. -/
def c5State : ServerState :=
  { rooms := [⟨0, "R", "H", "tok0", [], 1, 30, 2, 1, "waiting", 0, none⟩],
    players := [⟨1, 0, "P", "tok1", 0, [], 0⟩],
    questions := [], topicSets := [], answered := [], groupCorrect := [],
    scoreLog := [], nextId := 2 }

theorem c5_witness :
    allAnsweredCheck 0 5 = false ∧
    ∃ out, submit_topic c5State 0 (some "tok1") "Jazz" (fun _ _ => []) 7 =
        .ok out ∧
      1 ≤ out.2.1.submittedCount ∧ 1 ≤ out.2.1.totalPlayers := by
  refine ⟨(c5_quorum_thresholds.1 5).2, ?_⟩
  obtain ⟨out, hout⟩ : ∃ out,
      submit_topic c5State 0 (some "tok1") "Jazz" (fun _ _ => []) 7 = .ok out :=
    ⟨_, rfl⟩
  have hmain := c5_quorum_thresholds.2 c5State 0 (some "tok1") "Jazz"
    (fun _ _ => []) 7 out hout
  exact ⟨out, hout, hmain.1, hmain.2⟩

/-- C7: for every room, the game-stats computation returns a group correct
rate equal to the count of the room questions whose group-correct flag is
set, divided by numRounds times questionsPerRound, as a rounded percentage
clamped to the range 0 to 100, and reports that product as the total
question count. -/
theorem c7_group_correct_rate (st : ServerState) (rid : Nat) (room : Room)
    (hroom : RoomStore.get_room st rid = some room)
    (hpos : 0 < room.numRounds * room.questionsPerRound) :
    ∃ stats, compute_game_stats st rid = .ok stats ∧
      stats.totalQuestions = room.numRounds * room.questionsPerRound ∧
      stats.groupCorrectRate = min 100 (max 0 (pyRoundNat
        (100 * (st.questions.countP (fun q =>
          q.roomId == rid && st.groupCorrect.contains q.questionId)))
        (room.numRounds * room.questionsPerRound))) := by
  have hcount : st.questions.countP (fun q =>
      q.roomId == rid && st.groupCorrect.contains q.questionId) =
      QuestionStore.get_questions_group_correct_count st rid := by
    unfold QuestionStore.get_questions_group_correct_count
    exact List.countP_eq_length_filter _ _
  unfold compute_game_stats
  rw [hroom]
  simp only
  by_cases hp : (PlayerStore.get_leaderboard st rid).isEmpty = true
  · rw [if_pos hp]
    refine ⟨_, rfl, rfl, ?_⟩
    simp only [if_pos hpos, hcount]
  · rw [if_neg hp]
    refine ⟨_, rfl, rfl, ?_⟩
    simp only [if_pos hpos, hcount]

/-- The room of the concrete C7 scenario: 2 rounds of 2 questions. -/
def c7Room : Room := ⟨0, "R", "H", "tok0", [], 2, 30, 2, 2, "finished", 0, none⟩

/-- A concrete finished room with 4 questions, 3 of them group-correct. -/
def c7State : ServerState :=
  { rooms := [c7Room],
    players := [],
    questions :=
      [⟨10, 0, 1, "q1", [], ["A"], 0, none, 0⟩,
       ⟨11, 0, 1, "q2", [], ["A"], 0, none, 1⟩,
       ⟨12, 0, 2, "q3", [], ["A"], 0, none, 0⟩,
       ⟨13, 0, 2, "q4", [], ["A"], 0, none, 1⟩],
    topicSets := [], answered := [], groupCorrect := [10, 11, 12],
    scoreLog := [], nextId := 14 }

theorem c7_witness :
    RoomStore.get_room c7State 0 = some c7Room ∧
    0 < c7Room.numRounds * c7Room.questionsPerRound ∧
    ∃ stats, compute_game_stats c7State 0 = .ok stats ∧
      stats.totalQuestions = 4 ∧ stats.groupCorrectRate = 75 := by
  refine ⟨rfl, by decide, ?_⟩
  obtain ⟨stats, h1, h2, h3⟩ :=
    c7_group_correct_rate c7State 0 c7Room rfl (by decide)
  refine ⟨stats, h1, by rw [h2]; decide, ?_⟩
  rw [h3]
  decide

theorem record_group_fields (st : ServerState) (qid : Nat) :
    (QuestionStore.record_question_group_correct st qid).rooms = st.rooms ∧
    (QuestionStore.record_question_group_correct st qid).players = st.players ∧
    (QuestionStore.record_question_group_correct st qid).questions = st.questions ∧
    (QuestionStore.record_question_group_correct st qid).topicSets = st.topicSets ∧
    (QuestionStore.record_question_group_correct st qid).answered = st.answered ∧
    (QuestionStore.record_question_group_correct st qid).scoreLog = st.scoreLog ∧
    (QuestionStore.record_question_group_correct st qid).nextId = st.nextId ∧
    qid ∈ (QuestionStore.record_question_group_correct st qid).groupCorrect := by
  unfold QuestionStore.record_question_group_correct
  by_cases hmem : qid ∈ st.groupCorrect
  · rw [if_pos hmem]
    exact ⟨rfl, rfl, rfl, rfl, rfl, rfl, rfl, hmem⟩
  · rw [if_neg hmem]
    exact ⟨rfl, rfl, rfl, rfl, rfl, rfl, rfl,
      List.mem_append_right _ (List.mem_singleton_self _)⟩

theorem get_player_by_id_map (st : ServerState) (f : Player → Player)
    (hf : ∀ p, (f p).playerId = p.playerId) (pid : Nat) :
    PlayerStore.get_player_by_id { st with players := st.players.map f } pid =
      (PlayerStore.get_player_by_id st pid).map f := by
  unfold PlayerStore.get_player_by_id
  simp only
  rw [List.find?_map]
  have hcomp : ((fun p : Player => p.playerId == pid) ∘ f) =
      (fun p : Player => p.playerId == pid) := by
    funext p
    simp [Function.comp, hf p]
  rw [hcomp]

theorem update_player_score_ok {st : ServerState} {pid points : Nat}
    {topics : List String} {player : Player}
    (hpid : PlayerStore.get_player_by_id st pid = some player) :
    PlayerStore.update_player_score st pid points topics =
      .ok ({ st with players := st.players.map (fun q =>
              if q.playerId == pid then
                { player with
                  score := player.score + points,
                  topicScore :=
                    (if topics ≠ [] ∧ 0 < points then
                      bumpTopicScores player.topicScore topics points
                    else player.topicScore) }
              else q) },
        { player with
          score := player.score + points,
          topicScore :=
            (if topics ≠ [] ∧ 0 < points then
              bumpTopicScores player.topicScore topics points
            else player.topicScore) }) := by
  unfold PlayerStore.update_player_score
  rw [hpid]

theorem get_player_by_id_congr {st st' : ServerState}
    (h : st'.players = st.players) (pid : Nat) :
    PlayerStore.get_player_by_id st' pid = PlayerStore.get_player_by_id st pid := by
  unfold PlayerStore.get_player_by_id
  rw [h]

theorem answered_set_congr {st st' : ServerState}
    (h : st'.answered = st.answered) (rid qid : Nat) :
    answered_set st' rid qid = answered_set st rid qid := by
  unfold answered_set
  rw [h]

/-- The single-player update applied by update_player_score to the player
list. -/
def updPlayer (pid : Nat) (pl' : Player) : Player → Player :=
  fun q => if q.playerId == pid then pl' else q

theorem updPlayer_playerId {pid : Nat} {pl' : Player}
    (h : pl'.playerId = pid) (q : Player) :
    (updPlayer pid pl' q).playerId = q.playerId := by
  unfold updPlayer
  by_cases hq : (q.playerId == pid) = true
  · rw [if_pos hq, h]
    exact (beq_iff_eq.mp hq).symm
  · rw [if_neg hq]

theorem updPlayer_roomId {pid : Nat} {pl' : Player} {base : Player}
    (h : pl'.roomId = base.roomId)
    (hp : ∀ q : Player, q.playerId = pid → q.roomId = base.roomId) (q : Player) :
    (updPlayer pid pl' q).roomId = q.roomId := by
  unfold updPlayer
  by_cases hq : (q.playerId == pid) = true
  · rw [if_pos hq, h, hp q (beq_iff_eq.mp hq)]
  · rw [if_neg hq]

theorem length_players_room_map (st X : ServerState) (f : Player → Player)
    (hXpl : X.players = st.players.map f)
    (hf : ∀ p ∈ st.players, (f p).roomId = p.roomId) (rid : Nat) :
    (PlayerStore.get_players_by_room X rid).length =
      (PlayerStore.get_players_by_room st rid).length := by
  unfold PlayerStore.get_players_by_room
  rw [hXpl, length_sortAscBy, length_sortAscBy, ← List.countP_eq_length_filter,
    ← List.countP_eq_length_filter, List.countP_map]
  apply List.countP_congr
  intro p hp
  simp [Function.comp, hf p hp]

theorem submit_answer_correct_run
    {st : ServerState} {rid : Nat} {tok : String} {qid : Nat} {answer : String}
    {now : Nat} {room : Room} {player : Player} {question : Question}
    {copt : String}
    (hroom : RoomStore.get_room st rid = some room)
    (hstatus : room.status = "started")
    (htok : PlayerStore.get_player_by_token st tok = some player)
    (hpr : player.roomId = rid)
    (hpid : PlayerStore.get_player_by_id st player.playerId = some player)
    (huniq : ∀ q ∈ st.players, q.playerId = player.playerId → q = player)
    (hq : (QuestionStore.get_questions_by_room st rid).find?
        (fun q => q.questionId == qid) = some question)
    (hopt : question.options.get? question.correctAnswer = some copt)
    (hmatch : (pstrip (plower answer) == pstrip (plower copt)) = true) :
    ∃ st' ev pl',
      submit_answer st rid (some tok) qid answer now =
        .ok (st', ⟨true, true, copt, pointsPerCorrectAnswer,
          player.score + pointsPerCorrectAnswer⟩, ev) ∧
      pl'.playerId = player.playerId ∧
      pl'.score = player.score + pointsPerCorrectAnswer ∧
      pl'.topicScore = (if question.topics = [] then player.topicScore
        else bumpTopicScores player.topicScore question.topics
          pointsPerCorrectAnswer) ∧
      st'.players = st.players.map (updPlayer player.playerId pl') ∧
      qid ∈ st'.groupCorrect ∧
      ev = [Event.answerSubmitted player.playerId qid
            (player.score + pointsPerCorrectAnswer)] ++
        (if allAnsweredCheck
            (if player.playerId ∈ answered_set st rid qid then
              answered_set st rid qid
            else answered_set st rid qid ++ [player.playerId]).length
            (PlayerStore.get_players_by_room st rid).length = true then
          [Event.allAnswersSubmitted qid now]
        else []) := by
  have h100 : (0 : Nat) < pointsPerCorrectAnswer := by decide
  obtain ⟨stu, pl', hupd, hplid, hproom, hscore, hts, hstu⟩ : ∃ stu pl',
      PlayerStore.update_player_score st player.playerId
        pointsPerCorrectAnswer question.topics = .ok (stu, pl') ∧
      pl'.playerId = player.playerId ∧
      pl'.roomId = player.roomId ∧
      pl'.score = player.score + pointsPerCorrectAnswer ∧
      pl'.topicScore = (if question.topics = [] then player.topicScore
        else bumpTopicScores player.topicScore question.topics
          pointsPerCorrectAnswer) ∧
      stu = { st with players := st.players.map (updPlayer player.playerId pl') } := by
    refine ⟨_, _, update_player_score_ok hpid, rfl, rfl, rfl, ?_, rfl⟩
    by_cases hne : question.topics = [] <;>
      simp [hne, pointsPerCorrectAnswer]
  unfold submit_answer
  simp only
  rw [hroom]
  simp only
  rw [if_pos hstatus, htok]
  simp only
  rw [if_pos hpr, hq]
  simp only
  rw [hopt]
  simp only
  rw [hmatch]
  simp only [if_pos rfl, if_true, if_pos h100]
  rw [hupd]
  simp only [Except.map]
  rw [hscore]
  refine ⟨_, _, pl', rfl, hplid, hscore, hts, ?_, ?_, ?_⟩
  · show (QuestionStore.record_question_group_correct stu qid).players =
      st.players.map (updPlayer player.playerId pl')
    rw [(record_group_fields stu qid).2.1, hstu]
  · show qid ∈ (QuestionStore.record_question_group_correct stu qid).groupCorrect
    exact (record_group_fields stu qid).2.2.2.2.2.2.2
  · have hf : ∀ p ∈ st.players,
        (updPlayer player.playerId pl' p).roomId = p.roomId := by
      intro p hp
      unfold updPlayer
      by_cases hq2 : (p.playerId == player.playerId) = true
      · rw [if_pos hq2, huniq p hp (beq_iff_eq.mp hq2), ← hproom]
      · rw [if_neg hq2]
    have hgen : ∀ (X : ServerState) (A B : List Event),
        X.answered = st.answered →
        X.players = st.players.map (updPlayer player.playerId pl') →
        (if (QuestionStore.record_answer_and_check_all X rid qid
              player.playerId).2 = true
          then A ++ B else A) =
          A ++ (if allAnsweredCheck
              (if player.playerId ∈ answered_set st rid qid then
                answered_set st rid qid
              else answered_set st rid qid ++ [player.playerId]).length
              (PlayerStore.get_players_by_room st rid).length = true
            then B else []) := by
      intro X A B hXans hXpl
      have hXlen : (PlayerStore.get_players_by_room X rid).length =
          (PlayerStore.get_players_by_room st rid).length :=
        length_players_room_map st X (updPlayer player.playerId pl') hXpl hf rid
      rw [record_answer_bool, answered_set_congr hXans, hXlen]
      cases hb : allAnsweredCheck
          (if player.playerId ∈ answered_set st rid qid then
            answered_set st rid qid
          else answered_set st rid qid ++ [player.playerId]).length
          (PlayerStore.get_players_by_room st rid).length <;>
        simp [hb]
    apply hgen
    · show (QuestionStore.record_question_group_correct stu qid).answered =
        st.answered
      rw [(record_group_fields stu qid).2.2.2.2.1, hstu]
    · show (QuestionStore.record_question_group_correct stu qid).players =
        st.players.map (updPlayer player.playerId pl')
      rw [(record_group_fields stu qid).2.1, hstu]

/-- C2: for every submit-answer request on a started room, by a player of
that room, for a question of the current round, whose submitted text
matches the correct option text (case-insensitive, whitespace-trimmed):
the fixed 100 points are added to the player total score and to the player
per-topic score of every topic tagged on the question, the question
group-correct flag is set, and the call returns correctness true, the
literal correct option text, the points awarded, and the new total score. -/
theorem c2_correct_answer_awards
    {st : ServerState} {rid : Nat} {tok : String} {qid : Nat} {answer : String}
    {now : Nat} {room : Room} {player : Player} {question : Question}
    {copt : String}
    (hroom : RoomStore.get_room st rid = some room)
    (hstatus : room.status = "started")
    (htok : PlayerStore.get_player_by_token st tok = some player)
    (hpr : player.roomId = rid)
    (hpid : PlayerStore.get_player_by_id st player.playerId = some player)
    (huniq : ∀ q ∈ st.players, q.playerId = player.playerId → q = player)
    (hq : (QuestionStore.get_questions_by_room st rid).find?
        (fun q => q.questionId == qid) = some question)
    (hopt : question.options.get? question.correctAnswer = some copt)
    (hmatch : (pstrip (plower answer) == pstrip (plower copt)) = true)
    (hnd : question.topics.Nodup) :
    ∃ st' ev,
      submit_answer st rid (some tok) qid answer now =
        .ok (st', ⟨true, true, copt, 100, player.score + 100⟩, ev) ∧
      (∃ pl', PlayerStore.get_player_by_id st' player.playerId = some pl' ∧
        pl'.score = player.score + 100 ∧
        ∀ t ∈ question.topics,
          dictGetD pl'.topicScore t = dictGetD player.topicScore t + 100) ∧
      qid ∈ st'.groupCorrect := by
  obtain ⟨st', ev, pl', heq, hplid, hscore, hts, hplayers, hgc, -⟩ :=
    submit_answer_correct_run hroom hstatus htok hpr hpid huniq hq hopt hmatch
  refine ⟨st', ev, heq, ⟨pl', ?_, hscore, ?_⟩, hgc⟩
  · unfold PlayerStore.get_player_by_id
    rw [hplayers, List.find?_map]
    have hcomp : ((fun p : Player => p.playerId == player.playerId) ∘
        updPlayer player.playerId pl') =
        (fun p : Player => p.playerId == player.playerId) := by
      funext p
      simp [Function.comp, updPlayer_playerId hplid p]
    rw [hcomp,
      show st.players.find? (fun p => p.playerId == player.playerId) =
        some player from hpid]
    simp [updPlayer]
  · intro t ht
    by_cases hne : question.topics = []
    · rw [hne] at ht; cases ht
    · rw [hts, if_neg hne]
      exact dictGetD_bump_of_mem player.topicScore _ hnd ht

/-- The room of the concrete C2 scenario. -/
def c2Room : Room := ⟨0, "R", "H", "tok0", [], 1, 30, 1, 1, "started", 0, some 3⟩

/-- The player of the concrete C2 scenario. -/
def c2Player : Player := ⟨1, 0, "P", "tok1", 0, [], 0⟩

/-- The question of the concrete C2 scenario. -/
def c2Question : Question :=
  ⟨5, 0, 1, "q", ["Movies"], ["A", "B", "C", "D"], 2, none, 0⟩

/-- A concrete started 1-player room with one current-round question. -/
def c2State : ServerState :=
  { rooms := [c2Room], players := [c2Player], questions := [c2Question],
    topicSets := [], answered := [], groupCorrect := [], scoreLog := [],
    nextId := 6 }

theorem c2_witness :
    (RoomStore.get_room c2State 0 = some c2Room ∧
     c2Room.status = "started" ∧
     PlayerStore.get_player_by_token c2State "tok1" = some c2Player ∧
     (QuestionStore.get_questions_by_room c2State 0).find?
        (fun q => q.questionId == 5) = some c2Question ∧
     c2Question.options.get? c2Question.correctAnswer = some "C" ∧
     (pstrip (plower "c") == pstrip (plower "C")) = true) ∧
    (∃ st' ev,
      submit_answer c2State 0 (some "tok1") 5 "c" 9 =
        .ok (st', ⟨true, true, "C", 100, c2Player.score + 100⟩, ev) ∧
      (∃ pl', PlayerStore.get_player_by_id st' c2Player.playerId = some pl' ∧
        pl'.score = c2Player.score + 100 ∧
        ∀ t ∈ c2Question.topics,
          dictGetD pl'.topicScore t = dictGetD c2Player.topicScore t + 100) ∧
      5 ∈ st'.groupCorrect) := by
  refine ⟨⟨by decide, by decide, by decide, by decide, by decide, by decide⟩, ?_⟩
  exact c2_correct_answer_awards
    (show RoomStore.get_room c2State 0 = some c2Room by decide)
    (show c2Room.status = "started" by decide)
    (show PlayerStore.get_player_by_token c2State "tok1" = some c2Player
      by decide)
    (show c2Player.roomId = 0 by decide)
    (show PlayerStore.get_player_by_id c2State c2Player.playerId = some c2Player
      by decide)
    (show ∀ q ∈ c2State.players, q.playerId = c2Player.playerId → q = c2Player
      by decide)
    (show (QuestionStore.get_questions_by_room c2State 0).find?
        (fun q => q.questionId == 5) = some c2Question by decide)
    (show c2Question.options.get? c2Question.correctAnswer = some "C" by decide)
    (show (pstrip (plower "c") == pstrip (plower "C")) = true by decide)
    (show c2Question.topics.Nodup by decide)

theorem submit_answer_isCorrect_inv {st : ServerState} {rid : Nat}
    {tok : String} {qid : Nat} {ans : String} {now : Nat} {st' : ServerState}
    {resp : SubmitAnswerResponse} {ev : List Event}
    (h : submit_answer st rid (some tok) qid ans now = .ok (st', resp, ev)) :
    ∃ question copt,
      (QuestionStore.get_questions_by_room st rid).find?
        (fun q => q.questionId == qid) = some question ∧
      question.options.get? question.correctAnswer = some copt ∧
      resp.isCorrect = (pstrip (plower ans) == pstrip (plower copt)) := by
  unfold submit_answer at h
  simp only at h
  cases hroom : RoomStore.get_room st rid with
  | none => rw [hroom] at h; simp at h
  | some room =>
    rw [hroom] at h
    simp only at h
    by_cases hst : room.status = "started"
    case neg => rw [if_neg hst] at h; simp at h
    case pos =>
    rw [if_pos hst] at h
    cases hpl : PlayerStore.get_player_by_token st tok with
    | none => rw [hpl] at h; simp at h
    | some player =>
      rw [hpl] at h
      simp only at h
      by_cases hpr : player.roomId = rid
      case neg => rw [if_neg hpr] at h; simp at h
      case pos =>
      rw [if_pos hpr] at h
      cases hq : (QuestionStore.get_questions_by_room st rid).find?
          (fun q => q.questionId == qid) with
      | none => rw [hq] at h; simp at h
      | some question =>
        rw [hq] at h
        simp only at h
        cases hopt : question.options.get? question.correctAnswer with
        | none => rw [hopt] at h; simp at h
        | some copt =>
          rw [hopt] at h
          simp only at h
          refine ⟨question, copt, (by first | exact hq | rfl),
            (by first | exact hopt | rfl), ?_⟩
          by_cases hb : (pstrip (plower ans) == pstrip (plower copt)) = true
          · rw [hb] at h ⊢
            simp only [if_pos rfl, if_true] at h
            have h100 : (0 : Nat) < pointsPerCorrectAnswer := by decide
            rw [if_pos h100] at h
            cases hupd : PlayerStore.update_player_score st player.playerId
                pointsPerCorrectAnswer question.topics with
            | error e => rw [hupd] at h; simp [Except.map] at h
            | ok pr =>
              rw [hupd] at h
              simp only [Except.map] at h
              simp only [Except.ok.injEq, Prod.mk.injEq] at h
              rw [← h.2.1]
          · have hb' : (pstrip (plower ans) == pstrip (plower copt)) = false :=
              Bool.not_eq_true _ ▸ hb
            rw [hb'] at h ⊢
            simp only [Bool.false_eq_true, if_false, Nat.lt_irrefl] at h
            simp only [Except.ok.injEq, Prod.mk.injEq] at h
            rw [← h.2.1]

/-- C6: the correctness check is a case-insensitive, whitespace-trimmed
string equality between the submitted text and the option text at the
question correct index, not an index equality: with options A B C D and
correct index 2, any submission is judged by lowercased-trimmed equality
with the text C, so the lowercase submission c is accepted; and in a
1-player room this single submission covers the answered set of all
players, so the all-answers-submitted broadcast fires. -/
theorem c6_lowercase_answer_accepted
    {st : ServerState} {rid : Nat} {tok : String} {qid : Nat} {now : Nat}
    {room : Room} {player : Player} {question : Question}
    (hroom : RoomStore.get_room st rid = some room)
    (hstatus : room.status = "started")
    (htok : PlayerStore.get_player_by_token st tok = some player)
    (hpr : player.roomId = rid)
    (hpid : PlayerStore.get_player_by_id st player.playerId = some player)
    (huniq : ∀ q ∈ st.players, q.playerId = player.playerId → q = player)
    (hplayers1 : PlayerStore.get_players_by_room st rid = [player])
    (hq : (QuestionStore.get_questions_by_room st rid).find?
        (fun q => q.questionId == qid) = some question)
    (hopts : question.options = ["A", "B", "C", "D"])
    (hcorr : question.correctAnswer = 2) :
    (∀ ans st' resp ev,
      submit_answer st rid (some tok) qid ans now = .ok (st', resp, ev) →
      resp.isCorrect = (pstrip (plower ans) == pstrip (plower "C"))) ∧
    (∃ st' ev,
      submit_answer st rid (some tok) qid "c" now =
        .ok (st', ⟨true, true, "C", 100, player.score + 100⟩, ev) ∧
      Event.allAnswersSubmitted qid now ∈ ev) := by
  have hopt : question.options.get? question.correctAnswer = some "C" := by
    rw [hopts, hcorr]
    rfl
  constructor
  · intro ans st' resp ev h
    obtain ⟨question2, copt2, hq2, hopt2, hic⟩ := submit_answer_isCorrect_inv h
    rw [hq] at hq2
    have hq3 : question2 = question := by
      injection hq2 with hq3
      exact hq3.symm
    subst hq3
    rw [hopt] at hopt2
    have hcopt : copt2 = "C" := by
      injection hopt2 with hcopt
      exact hcopt.symm
    subst hcopt
    exact hic
  · obtain ⟨st', ev, pl', heq, -, -, -, -, -, hev⟩ :=
      submit_answer_correct_run hroom hstatus htok hpr hpid huniq hq hopt
        (show (pstrip (plower "c") == pstrip (plower "C")) = true by decide)
    refine ⟨st', ev, heq, ?_⟩
    rw [hev]
    have hchk : allAnsweredCheck
        (if player.playerId ∈ answered_set st rid qid then
          answered_set st rid qid
        else answered_set st rid qid ++ [player.playerId]).length
        (PlayerStore.get_players_by_room st rid).length = true := by
      rw [hplayers1]
      simp only [allAnsweredCheck, effectiveTotalPlayers, List.length_cons,
        List.length_nil, decide_eq_true_eq]
      by_cases hmem : player.playerId ∈ answered_set st rid qid
      · rw [if_pos hmem]
        have := List.length_pos.mpr (List.ne_nil_of_mem hmem)
        omega
      · rw [if_neg hmem, List.length_append]
        simp
    rw [hchk]
    simp

theorem c6_witness :
    (RoomStore.get_room c2State 0 = some c2Room ∧
     PlayerStore.get_players_by_room c2State 0 = [c2Player] ∧
     c2Question.options = ["A", "B", "C", "D"] ∧
     c2Question.correctAnswer = 2) ∧
    ((∀ ans st' resp ev,
        submit_answer c2State 0 (some "tok1") 5 ans 9 = .ok (st', resp, ev) →
        resp.isCorrect = (pstrip (plower ans) == pstrip (plower "C"))) ∧
     (∃ st' ev,
        submit_answer c2State 0 (some "tok1") 5 "c" 9 =
          .ok (st', ⟨true, true, "C", 100, c2Player.score + 100⟩, ev) ∧
        Event.allAnswersSubmitted 5 9 ∈ ev)) := by
  refine ⟨⟨by decide, by decide, by decide, by decide⟩, ?_⟩
  exact c6_lowercase_answer_accepted
    (show RoomStore.get_room c2State 0 = some c2Room by decide)
    (show c2Room.status = "started" by decide)
    (show PlayerStore.get_player_by_token c2State "tok1" = some c2Player
      by decide)
    (show c2Player.roomId = 0 by decide)
    (show PlayerStore.get_player_by_id c2State c2Player.playerId = some c2Player
      by decide)
    (show ∀ q ∈ c2State.players, q.playerId = c2Player.playerId → q = c2Player
      by decide)
    (show PlayerStore.get_players_by_room c2State 0 = [c2Player] by decide)
    (show (QuestionStore.get_questions_by_room c2State 0).find?
        (fun q => q.questionId == 5) = some c2Question by decide)
    (show c2Question.options = ["A", "B", "C", "D"] by decide)
    (show c2Question.correctAnswer = 2 by decide)

/-- A concrete waiting room that already contains a player named Alice. -/
def c9State : ServerState :=
  { rooms := [⟨0, "R", "H", "tok0", [], 1, 30, 1, 1, "waiting", 0, none⟩],
    players := [⟨1, 0, "Alice", "tok1", 0, [], 0⟩],
    questions := [], topicSets := [], answered := [], groupCorrect := [],
    scoreLog := [], nextId := 2 }

/-- C9: evaluation of the code at the failing input: joining a room that
already has a player named Alice with the same name Alice succeeds (the
Redis-backed PlayerStore.create_player performs no name-uniqueness check),
leaving two player records with the same display name in the room; the 409
name-taken handler of join_room is dead code on this store. -/
theorem c9_duplicate_name_join :
    (Except.toOption (join_room c9State 0 "Alice" "Books" 5)).map
      (fun out => ((PlayerStore.get_players_by_room out.1 0).filter
        (fun p => p.playerName == "Alice")).length) = some 2 := by
  decide

theorem topic_set_congr {stA stB : ServerState}
    (h : stA.topicSets = stB.topicSets) (rid round : Nat) :
    TopicStore.topic_set stA rid round = TopicStore.topic_set stB rid round := by
  unfold TopicStore.topic_set
  rw [h]

/-- C10: submit-topic checks no room-lifecycle status: a call succeeds
exactly when the room exists, the token resolves to a player of that room,
and the stripped topic is non-empty and at most 50 characters; on success
the stripped topic is recorded in the topic set of round
current_round + 1. -/
theorem c10_submit_topic_no_lifecycle_precondition
    (st : ServerState) (rid : Nat) (tok : Option String) (raw : String)
    (gen : List String → Nat → List GenQuestion) (now : Nat) :
    ((∃ out, submit_topic st rid tok raw gen now = .ok out) ↔
      ((∃ room, RoomStore.get_room st rid = some room) ∧
       (∃ t player, tok = some t ∧
         PlayerStore.get_player_by_token st t = some player ∧
         player.roomId = rid) ∧
       pstrip raw ≠ "" ∧ (pstrip raw).length ≤ 50)) ∧
    (∀ out room, submit_topic st rid tok raw gen now = .ok out →
      RoomStore.get_room st rid = some room →
      pstrip raw ∈ TopicStore.topic_set out.1 rid (room.currentRound + 1)) := by
  constructor
  · constructor
    · rintro ⟨out, h⟩
      obtain ⟨t, room, player, st1, htokeq, hroom, hplayer, hpr, hemp, hlen,
        hadd, -, -⟩ := submit_topic_ok_inv h
      exact ⟨⟨room, hroom⟩, ⟨t, player, htokeq, hplayer, hpr⟩, hemp, by omega⟩
    · rintro ⟨⟨room, hroom⟩, ⟨t, player, htokeq, hplayer, hpr⟩, hemp, hlen⟩
      subst htokeq
      unfold submit_topic
      simp only
      rw [hroom]
      simp only
      rw [hplayer]
      simp only
      rw [if_pos hpr, if_neg hemp,
        if_neg (show ¬ 50 < (pstrip raw).length by omega)]
      cases hadd : TopicStore.add_topic st rid (pstrip raw)
          (room.currentRound + 1) with
      | error e =>
        exfalso
        unfold TopicStore.add_topic at hadd
        rw [hroom] at hadd
        simp at hadd
      | ok st1 =>
        simp only
        by_cases hq : topicQuorumMet
            (TopicStore.get_topics st1 rid (room.currentRound + 1)).length
            (PlayerStore.get_players_by_room st1 rid).length = true
        · rw [if_pos hq]
          cases hupd : RoomStore.update_room_round
              (QuestionStore.create_questions st1 rid (room.currentRound + 1)
                (gen (TopicStore.get_topics st1 rid (room.currentRound + 1))
                  room.questionsPerRound)).1
              rid (room.currentRound + 1) (some now) with
          | error e =>
            exfalso
            unfold RoomStore.update_room_round at hupd
            have hrooms1 : st1.rooms = st.rooms :=
              (add_topic_spec hadd).2.2.1
            have hget : RoomStore.get_room
                (QuestionStore.create_questions st1 rid (room.currentRound + 1)
                  (gen (TopicStore.get_topics st1 rid (room.currentRound + 1))
                    room.questionsPerRound)).1 rid = some room := by
              unfold RoomStore.get_room
              show st1.rooms.find? (fun r => r.roomId == rid) = some room
              rw [hrooms1]
              exact hroom
            rw [hget] at hupd
            simp at hupd
          | ok st3 => exact ⟨_, rfl⟩
        · rw [if_neg hq]
          exact ⟨_, rfl⟩
  · intro out room h hroomq
    obtain ⟨t, room2, player, st1, htokeq, hroom', hplayer, hpr, hemp, hlen,
      hadd, -, hbranch⟩ := submit_topic_ok_inv h
    have hre : room = room2 := by
      rw [hroomq] at hroom'
      injection hroom' with hre
      first
      | exact hre
      | exact hre.symm
      | skip
    subst hre
    have hmem1 : pstrip raw ∈
        TopicStore.topic_set st1 rid (room.currentRound + 1) := by
      have := mem_topic_set_after_add hadd
      rwa [pstrip_idem] at this
    by_cases hq : topicQuorumMet
        (TopicStore.get_topics st1 rid (room.currentRound + 1)).length
        (PlayerStore.get_players_by_room st1 rid).length = true
    · rw [if_pos hq] at hbranch
      obtain ⟨st3, hupd, hout⟩ := hbranch
      rw [hout]
      have hts3 : TopicStore.topic_set st3 rid (room.currentRound + 1) =
          TopicStore.topic_set st1 rid (room.currentRound + 1) := by
        unfold TopicStore.topic_set
        rw [show st3.topicSets = st1.topicSets from
          (update_room_round_spec hupd).2.2.1]
      rw [hts3]
      exact hmem1
    · rw [if_neg hq] at hbranch
      rw [hbranch]
      exact hmem1

/-- The waiting room of the concrete C10 scenario. -/
def c10Room : Room := ⟨0, "R", "H", "tok0", [], 1, 30, 2, 1, "waiting", 0, none⟩

/-- The player of the concrete C10 scenario. -/
def c10Player : Player := ⟨1, 0, "P", "tok1", 0, [], 0⟩

/-- A concrete waiting (not yet started) one-player room. -/
def c10State : ServerState :=
  { rooms := [c10Room], players := [c10Player], questions := [],
    topicSets := [], answered := [], groupCorrect := [], scoreLog := [],
    nextId := 2 }

/-- The generator used by the concrete C10 scenario. -/
def c10Gen : List String → Nat → List GenQuestion :=
  fun _ n => List.replicate n ⟨"q", [], ["A", "B", "C", "D"], 0, none⟩

theorem c10_witness :
    (∃ out, submit_topic c10State 0 (some "tok1") "Jazz" c10Gen 7 = .ok out) ∧
    (∀ out, submit_topic c10State 0 (some "tok1") "Jazz" c10Gen 7 = .ok out →
      pstrip "Jazz" ∈
        TopicStore.topic_set out.1 0 (c10Room.currentRound + 1)) ∧
    (Except.toOption (submit_topic c10State 0 (some "tok1") "Jazz" c10Gen 7)).map
      (fun out => (RoomStore.get_room out.1 0).map
        (fun r => (r.status, r.currentRound))) = some (some ("waiting", 2)) := by
  refine ⟨?_, ?_, by decide⟩
  · exact (c10_submit_topic_no_lifecycle_precondition c10State 0 (some "tok1")
      "Jazz" c10Gen 7).1.mpr
      ⟨⟨c10Room, by decide⟩,
       ⟨"tok1", c10Player, rfl, by decide, by decide⟩,
       by decide, by decide⟩
  · intro out h
    exact (c10_submit_topic_no_lifecycle_precondition c10State 0 (some "tok1")
      "Jazz" c10Gen 7).2 out c10Room h (by decide)

/-! ## Effect inversion lemmas for whole requests -/

theorem get_room_roomId {st : ServerState} {rid : Nat} {room : Room}
    (h : RoomStore.get_room st rid = some room) : room.roomId = rid := by
  have := List.find?_some h
  simpa using this

theorem create_player_inv {st : ServerState} {rid : Nat} {name : String}
    {now : Nat} {pr : ServerState × Player}
    (h : PlayerStore.create_player st rid name now = .ok pr) :
    pr.2 = ⟨st.nextId, rid, name, "tok" ++ toString st.nextId, 0, [], now⟩ ∧
    pr.1 = { st with
      players := st.players ++ [pr.2],
      nextId := st.nextId + 1 } := by
  unfold PlayerStore.create_player at h
  cases hroom : RoomStore.get_room st rid with
  | none => rw [hroom] at h; simp at h
  | some room =>
    rw [hroom] at h
    simp only [Except.ok.injEq] at h
    subst h
    exact ⟨rfl, rfl⟩

theorem update_player_score_inv {st : ServerState} {pid points : Nat}
    {topics : List String} {pr : ServerState × Player}
    (h : PlayerStore.update_player_score st pid points topics = .ok pr) :
    ∃ pl0, PlayerStore.get_player_by_id st pid = some pl0 ∧
      pl0.playerId = pid ∧
      pr.2.playerId = pl0.playerId ∧
      pr.2.score = pl0.score + points ∧
      pr.1 = { st with players := st.players.map (updPlayer pid pr.2) } := by
  unfold PlayerStore.update_player_score at h
  cases hpid : PlayerStore.get_player_by_id st pid with
  | none => rw [hpid] at h; simp at h
  | some pl0 =>
    rw [hpid] at h
    simp only [Except.ok.injEq] at h
    subst h
    refine ⟨pl0, rfl, ?_, rfl, rfl, rfl⟩
    have := List.find?_some hpid
    simpa using this

theorem seedTopics_fields (ts : List String) (st : ServerState) (rid : Nat) :
    (seedTopics st rid ts).rooms = st.rooms ∧
    (seedTopics st rid ts).players = st.players ∧
    (seedTopics st rid ts).questions = st.questions ∧
    (seedTopics st rid ts).answered = st.answered ∧
    (seedTopics st rid ts).groupCorrect = st.groupCorrect ∧
    (seedTopics st rid ts).scoreLog = st.scoreLog ∧
    (seedTopics st rid ts).nextId = st.nextId := by
  induction ts generalizing st with
  | nil => exact ⟨rfl, rfl, rfl, rfl, rfl, rfl, rfl⟩
  | cons t rest ih =>
    unfold seedTopics
    by_cases hemp : pstrip t = ""
    · rw [if_pos hemp]
      exact ih st
    · rw [if_neg hemp]
      cases hadd : TopicStore.add_topic st rid t 1 with
      | error e => exact ih st
      | ok st2 =>
        obtain ⟨-, -, h1, h2, h3, h4, h5, h6, h7⟩ := add_topic_spec hadd
        have := ih st2
        rw [h1, h2, h3, h4, h5, h6, h7] at this
        exact this

theorem join_room_ok_inv {st : ServerState} {rid : Nat} {name topic : String}
    {now : Nat} {out : ServerState × JoinRoomResponse × List Event}
    (h : join_room st rid name topic now = .ok out) :
    ∃ room p st1 st2,
      RoomStore.get_room st rid = some room ∧
      room.status = "waiting" ∧
      PlayerStore.create_player st rid name now = .ok (st1, p) ∧
      TopicStore.add_topic st1 rid topic 1 = .ok st2 ∧
      out.1 = st2 := by
  unfold join_room at h
  cases hroom : RoomStore.get_room st rid with
  | none => rw [hroom] at h; simp at h
  | some room =>
    rw [hroom] at h
    simp only at h
    by_cases hst : room.status = "waiting"
    case neg => rw [if_neg hst] at h; simp at h
    case pos =>
    rw [if_pos hst] at h
    by_cases hemp : pstrip topic = ""
    case pos => rw [if_pos hemp] at h; simp at h
    case neg =>
    rw [if_neg hemp] at h
    cases hc : PlayerStore.create_player st rid name now with
    | error e => rw [hc] at h; simp at h
    | ok pr =>
      obtain ⟨st1, p⟩ := pr
      rw [hc] at h
      simp only at h
      cases hadd : TopicStore.add_topic st1 rid topic 1 with
      | error e => rw [hadd] at h; simp at h
      | ok st2 =>
        rw [hadd] at h
        simp only [Except.ok.injEq] at h
        subst h
        exact ⟨room, p, st1, st2, rfl, hst, (by first | exact hc | rfl),
          (by first | exact hadd | rfl), rfl⟩

theorem get_room_congr {stA stB : ServerState} (h : stA.rooms = stB.rooms)
    (rid : Nat) : RoomStore.get_room stA rid = RoomStore.get_room stB rid := by
  unfold RoomStore.get_room
  rw [h]

theorem get_qbrr_append_later {stA stB : ServerState} {qs : List Question}
    {rid2 r2 : Nat} (h : stA.questions = stB.questions ++ qs)
    (hqs : ∀ q ∈ qs, q.round ≠ r2) :
    QuestionStore.get_questions_by_room_and_round stA rid2 r2 =
      QuestionStore.get_questions_by_room_and_round stB rid2 r2 := by
  unfold QuestionStore.get_questions_by_room_and_round
  rw [h, List.filter_append]
  have hnil : qs.filter (fun q => q.roomId == rid2 && q.round == r2) = [] := by
    rw [List.filter_eq_nil_iff]
    intro q hq
    simp [hqs q hq]
  rw [hnil, List.append_nil]

theorem start_game_ok_inv {st : ServerState} {rid : Nat} {tok : String}
    {gen : List String → Nat → List GenQuestion} {now : Nat}
    {out : ServerState × StartGameResponse × List Event × List GenCall}
    (h : start_game st rid (some tok) gen now = .ok out) :
    ∃ room0,
      RoomStore.get_room st rid = some room0 ∧
      room0.hostToken = tok ∧
      room0.status = "waiting" ∧
      out.1.players = st.players ∧
      out.1.topicSets = st.topicSets ∧
      out.1.answered = st.answered ∧
      out.1.groupCorrect = st.groupCorrect ∧
      out.1.scoreLog = st.scoreLog ∧
      st.nextId ≤ out.1.nextId ∧
      (∀ rid2, RoomStore.get_room out.1 rid2 =
        (RoomStore.get_room st rid2).map (fun r =>
          if r.roomId == rid then
            { r with status := "started", startedAt := (some now).or r.startedAt }
          else r)) := by
  unfold start_game at h
  simp only at h
  cases hroom : RoomStore.get_room st rid with
  | none => rw [hroom] at h; simp at h
  | some room0 =>
    rw [hroom] at h
    simp only at h
    by_cases htk : room0.hostToken = tok
    case neg => rw [if_neg htk] at h; simp at h
    case pos =>
    rw [if_pos htk] at h
    by_cases hst : room0.status = "waiting"
    case neg => rw [if_neg hst] at h; simp at h
    case pos =>
    rw [if_pos hst] at h
    by_cases hpl : (PlayerStore.get_players_by_room st rid).isEmpty = true
    case pos => rw [if_pos hpl] at h; simp at h
    case neg =>
    rw [if_neg hpl] at h
    by_cases htu : ((if TopicStore.get_topics st rid 1 ≠ [] then
        TopicStore.get_topics st rid 1 else room0.topics).isEmpty) = true
    case pos => rw [if_pos htu] at h; simp at h
    case neg =>
    rw [if_neg htu] at h
    cases hupd : RoomStore.update_room_status
        (QuestionStore.create_questions st rid 1
          (gen (if TopicStore.get_topics st rid 1 ≠ [] then
            TopicStore.get_topics st rid 1 else room0.topics)
            room0.questionsPerRound)).1
        rid "started" (some now) with
    | error e => rw [hupd] at h; simp at h
    | ok st2 =>
      rw [hupd] at h
      simp only [Except.ok.injEq] at h
      subst h
      obtain ⟨hp, hq2, hts, hans, hgc, hsl, hnid, hrooms⟩ :=
        update_room_status_spec hupd
      refine ⟨room0, rfl, htk, hst, hp, hts, hans, hgc, hsl, ?_, ?_⟩
      · rw [hnid]
        exact Nat.le_add_right _ _
      · intro rid2
        rw [hrooms rid2]
        have : RoomStore.get_room
            (QuestionStore.create_questions st rid 1
              (gen (if TopicStore.get_topics st rid 1 ≠ [] then
                TopicStore.get_topics st rid 1 else room0.topics)
                room0.questionsPerRound)).1 rid2 =
            RoomStore.get_room st rid2 := get_room_congr rfl rid2
        rw [this]

theorem submit_topic_ok_fields {st : ServerState} {rid : Nat}
    {tok : Option String} {raw : String}
    {gen : List String → Nat → List GenQuestion} {now : Nat}
    {out : ServerState × SubmitTopicResponse × List Event × List GenCall}
    (h : submit_topic st rid tok raw gen now = .ok out) :
    out.1.players = st.players ∧ out.1.scoreLog = st.scoreLog ∧
    out.1.answered = st.answered ∧ out.1.groupCorrect = st.groupCorrect ∧
    st.nextId ≤ out.1.nextId ∧
    ∃ room0, RoomStore.get_room st rid = some room0 ∧
      ((∀ rid2, RoomStore.get_room out.1 rid2 = RoomStore.get_room st rid2) ∨
       (∀ rid2, RoomStore.get_room out.1 rid2 =
         (RoomStore.get_room st rid2).map (fun r =>
           if r.roomId == rid then
             { r with
               currentRound := room0.currentRound + 1,
               startedAt := (some now).or r.startedAt }
           else r))) ∧
      (∀ rid2 r2, r2 ≤ room0.currentRound →
        QuestionStore.get_questions_by_room_and_round out.1 rid2 r2 =
          QuestionStore.get_questions_by_room_and_round st rid2 r2) := by
  obtain ⟨t, room0, player, st1, htokeq, hroom, hplayer, hpr, hemp, hlen,
    hadd, -, hbranch⟩ := submit_topic_ok_inv h
  obtain ⟨-, -, hrooms1, hp1, hq1, hans1, hgc1, hsl1, hnid1⟩ :=
    add_topic_spec hadd
  by_cases hq : topicQuorumMet
      (TopicStore.get_topics st1 rid (room0.currentRound + 1)).length
      (PlayerStore.get_players_by_room st1 rid).length = true
  · rw [if_pos hq] at hbranch
    obtain ⟨st3, hupd, hout⟩ := hbranch
    obtain ⟨hp3, hq3, hts3, hans3, hgc3, hsl3, hnid3, hrooms3⟩ :=
      update_room_round_spec hupd
    rw [hout]
    have hg : RoomStore.get_room st1 rid = some room0 := by
      rw [get_room_congr hrooms1 rid]
      exact hroom
    refine ⟨?_, ?_, ?_, ?_, ?_, room0, hroom, .inr ?_, ?_⟩
    · rw [hp3]
      exact hp1
    · rw [hsl3]
      exact hsl1
    · rw [hans3]
      exact hans1
    · rw [hgc3]
      exact hgc1
    · rw [hnid3]
      calc st.nextId = st1.nextId := hnid1.symm
        _ ≤ st1.nextId + (gen (TopicStore.get_topics st1 rid
              (room0.currentRound + 1)) room0.questionsPerRound).length :=
          Nat.le_add_right _ _
    · intro rid2
      rw [hrooms3 rid2]
      have hcg0 : (QuestionStore.create_questions st1 rid
          (room0.currentRound + 1)
          (gen (TopicStore.get_topics st1 rid (room0.currentRound + 1))
            room0.questionsPerRound)).1.rooms = st1.rooms := rfl
      have hcg : RoomStore.get_room
          (QuestionStore.create_questions st1 rid (room0.currentRound + 1)
            (gen (TopicStore.get_topics st1 rid (room0.currentRound + 1))
              room0.questionsPerRound)).1 rid2 =
          RoomStore.get_room st rid2 := by
        rw [get_room_congr hcg0 rid2, get_room_congr hrooms1 rid2]
      rw [hcg]
    · intro rid2 r2 hr2
      have hstep1 : QuestionStore.get_questions_by_room_and_round st3 rid2 r2 =
          QuestionStore.get_questions_by_room_and_round st1 rid2 r2 := by
        apply @get_qbrr_append_later st3 st1 (buildQuestions rid
          (room0.currentRound + 1)
          (gen (TopicStore.get_topics st1 rid (room0.currentRound + 1))
            room0.questionsPerRound) st1.nextId 0) rid2 r2
        · rw [hq3]
          rfl
        · intro q hqmem
          have := (mem_buildQuestions hqmem).2
          omega
      rw [hstep1]
      unfold QuestionStore.get_questions_by_room_and_round
      rw [hq1]
  · rw [if_neg hq] at hbranch
    rw [hbranch]
    refine ⟨hp1, hsl1, hans1, hgc1, Nat.le_of_eq hnid1.symm, room0, hroom,
      .inl ?_, ?_⟩
    · intro rid2
      exact get_room_congr hrooms1 rid2
    · intro rid2 r2 hr2
      unfold QuestionStore.get_questions_by_room_and_round
      rw [hq1]

theorem submit_answer_ok_effect {st : ServerState} {rid : Nat} {tok : String}
    {qid : Nat} {ans : String} {now : Nat}
    {out : ServerState × SubmitAnswerResponse × List Event}
    (h : submit_answer st rid (some tok) qid ans now = .ok out) :
    out.1.rooms = st.rooms ∧ out.1.questions = st.questions ∧
    out.1.topicSets = st.topicSets ∧ out.1.nextId = st.nextId ∧
    ((out.1.players = st.players ∧ out.1.scoreLog = st.scoreLog) ∨
     (∃ pid pl0 pl',
        PlayerStore.get_player_by_id st pid = some pl0 ∧
        pl0.playerId = pid ∧
        pl'.playerId = pl0.playerId ∧
        pl'.score = pl0.score + pointsPerCorrectAnswer ∧
        out.1.players = st.players.map (updPlayer pid pl') ∧
        out.1.scoreLog = st.scoreLog ++ [(pid, pointsPerCorrectAnswer)])) := by
  obtain ⟨o1, o2, o3⟩ := out
  unfold submit_answer at h
  simp only at h
  cases hroom : RoomStore.get_room st rid with
  | none => rw [hroom] at h; simp at h
  | some room =>
    rw [hroom] at h
    simp only at h
    by_cases hst : room.status = "started"
    case neg => rw [if_neg hst] at h; simp at h
    case pos =>
    rw [if_pos hst] at h
    cases hpl : PlayerStore.get_player_by_token st tok with
    | none => rw [hpl] at h; simp at h
    | some player =>
      rw [hpl] at h
      simp only at h
      by_cases hpr : player.roomId = rid
      case neg => rw [if_neg hpr] at h; simp at h
      case pos =>
      rw [if_pos hpr] at h
      cases hq : (QuestionStore.get_questions_by_room st rid).find?
          (fun q => q.questionId == qid) with
      | none => rw [hq] at h; simp at h
      | some question =>
        rw [hq] at h
        simp only at h
        cases hopt : question.options.get? question.correctAnswer with
        | none => rw [hopt] at h; simp at h
        | some copt =>
          rw [hopt] at h
          simp only at h
          by_cases hb : (pstrip (plower ans) == pstrip (plower copt)) = true
          · rw [hb] at h
            simp only [if_pos rfl, if_true] at h
            have h100 : (0 : Nat) < pointsPerCorrectAnswer := by decide
            rw [if_pos h100] at h
            cases hupd : PlayerStore.update_player_score st player.playerId
                pointsPerCorrectAnswer question.topics with
            | error e => rw [hupd] at h; simp [Except.map] at h
            | ok pr =>
              rw [hupd] at h
              simp only [Except.map] at h
              simp only [Except.ok.injEq, Prod.mk.injEq] at h
              obtain ⟨pl0, hpid0, hpl0id, hprid, hprscore, hprst⟩ :=
                update_player_score_inv hupd
              have hout1 : o1 =
                  (QuestionStore.record_answer_and_check_all
                    { QuestionStore.record_question_group_correct pr.1 qid with
                      scoreLog :=
                        (QuestionStore.record_question_group_correct
                          pr.1 qid).scoreLog ++
                          [(player.playerId, pointsPerCorrectAnswer)] }
                    rid qid player.playerId).1 :=
                h.1.symm
              refine ⟨?_, ?_, ?_, ?_, .inr ⟨player.playerId, pl0, pr.2,
                hpid0, hpl0id, hprid, hprscore, ?_, ?_⟩⟩
              · rw [hout1, (record_answer_fields _ rid qid player.playerId).1]
                show (QuestionStore.record_question_group_correct
                  pr.1 qid).rooms = st.rooms
                rw [(record_group_fields pr.1 qid).1, hprst]
              · rw [hout1, (record_answer_fields _ rid qid player.playerId).2.2.1]
                show (QuestionStore.record_question_group_correct
                  pr.1 qid).questions = st.questions
                rw [(record_group_fields pr.1 qid).2.2.1, hprst]
              · rw [hout1, (record_answer_fields _ rid qid player.playerId).2.2.2.1]
                show (QuestionStore.record_question_group_correct
                  pr.1 qid).topicSets = st.topicSets
                rw [(record_group_fields pr.1 qid).2.2.2.1, hprst]
              · rw [hout1,
                  (record_answer_fields _ rid qid player.playerId).2.2.2.2.2.2]
                show (QuestionStore.record_question_group_correct
                  pr.1 qid).nextId = st.nextId
                rw [(record_group_fields pr.1 qid).2.2.2.2.2.2.1, hprst]
              · rw [hout1, (record_answer_fields _ rid qid player.playerId).2.1]
                show (QuestionStore.record_question_group_correct
                  pr.1 qid).players = st.players.map
                    (updPlayer player.playerId pr.2)
                rw [(record_group_fields pr.1 qid).2.1, hprst]
              · rw [hout1,
                  (record_answer_fields _ rid qid player.playerId).2.2.2.2.2.1]
                show (QuestionStore.record_question_group_correct
                    pr.1 qid).scoreLog ++
                    [(player.playerId, pointsPerCorrectAnswer)] =
                  st.scoreLog ++ [(player.playerId, pointsPerCorrectAnswer)]
                rw [(record_group_fields pr.1 qid).2.2.2.2.2.1, hprst]
          · have hb' : (pstrip (plower ans) == pstrip (plower copt)) = false :=
              Bool.not_eq_true _ ▸ hb
            rw [hb'] at h
            simp only [Bool.false_eq_true, if_false, Nat.lt_irrefl] at h
            simp only [Except.ok.injEq, Prod.mk.injEq] at h
            have hout1 : o1 =
                (QuestionStore.record_answer_and_check_all st rid qid
                  player.playerId).1 :=
              h.1.symm
            refine ⟨?_, ?_, ?_, ?_, .inl ⟨?_, ?_⟩⟩
            · rw [hout1]
              exact (record_answer_fields st rid qid player.playerId).1
            · rw [hout1]
              exact (record_answer_fields st rid qid player.playerId).2.2.1
            · rw [hout1]
              exact (record_answer_fields st rid qid player.playerId).2.2.2.1
            · rw [hout1]
              exact (record_answer_fields st rid qid player.playerId).2.2.2.2.2.2
            · rw [hout1]
              exact (record_answer_fields st rid qid player.playerId).2.1
            · rw [hout1]
              exact (record_answer_fields st rid qid player.playerId).2.2.2.2.2.1

theorem create_room_spec (st : ServerState) (req : CreateRoomRequest)
    (now : Nat) :
    (∃ newRoom : Room, newRoom.status = "waiting" ∧
      (create_room st req now).1.rooms = st.rooms ++ [newRoom]) ∧
    (create_room st req now).1.scoreLog = st.scoreLog ∧
    st.nextId ≤ (create_room st req now).1.nextId ∧
    ((create_room st req now).1.players = st.players ∨
     ∃ p : Player, p.score = 0 ∧ st.nextId ≤ p.playerId ∧
       p.playerId < (create_room st req now).1.nextId ∧
       (create_room st req now).1.players = st.players ++ [p]) := by
  unfold create_room
  simp only
  obtain ⟨hr2, hp2, hq2, hans2, hgc2, hsl2, hnid2⟩ := seedTopics_fields
    req.topics
    { st with
      rooms := st.rooms ++
        [⟨st.nextId, req.name, req.name, "tok" ++ toString st.nextId,
          req.topics, req.questionsPerRound, req.timePerQuestion,
          req.numRounds, 1, "waiting", now, none⟩],
      nextId := st.nextId + 1 }
    st.nextId
  by_cases hmode : req.sessionMode = "player"
  · rw [if_pos hmode]
    cases hc : PlayerStore.create_player
        (seedTopics
          { st with
            rooms := st.rooms ++
              [⟨st.nextId, req.name, req.name, "tok" ++ toString st.nextId,
                req.topics, req.questionsPerRound, req.timePerQuestion,
                req.numRounds, 1, "waiting", now, none⟩],
            nextId := st.nextId + 1 }
          st.nextId req.topics)
        st.nextId req.name now with
    | error e =>
      refine ⟨⟨_, rfl, by rw [hr2]⟩, by rw [hsl2], ?_, .inl (by rw [hp2])⟩
      rw [hnid2]
      exact Nat.le_succ _
    | ok pr =>
      obtain ⟨stc, pc⟩ := pr
      obtain ⟨hpr2, hpr1⟩ := create_player_inv hc
      simp only at hpr1 hpr2 ⊢
      rw [hpr1]
      refine ⟨⟨_, rfl, by rw [hr2]⟩, by rw [hsl2], ?_, .inr ⟨pc, ?_, ?_, ?_, ?_⟩⟩
      · simp only
        rw [hnid2]
        simp only
        omega
      · rw [hpr2]
      · rw [hpr2]
        simp only
        rw [hnid2]
        simp only
        omega
      · rw [hpr2]
        simp only
        rw [hnid2]
        simp only
        omega
      · simp only
        rw [hp2]
  · rw [if_neg hmode]
    refine ⟨⟨_, rfl, by rw [hr2]⟩, by rw [hsl2], ?_, .inl (by rw [hp2])⟩
    rw [hnid2]
    exact Nat.le_succ _

/-! ## Room lifecycle rank (C4) -/

/-- Rank of a room status in the lifecycle order
waiting (0) -> started (1) -> finished (2); anything else ranks above. -/
def statusRank (s : String) : Nat :=
  if s = "waiting" then 0
  else if s = "started" then 1
  else if s = "finished" then 2
  else 3

theorem find?_append_of_some {α : Type} {p : α → Bool} {l1 : List α} {a : α}
    (h : l1.find? p = some a) (l2 : List α) : (l1 ++ l2).find? p = some a := by
  induction l1 with
  | nil => simp at h
  | cons x xs ih =>
    rw [List.cons_append]
    by_cases hx : p x = true
    · rw [List.find?_cons_of_pos _ hx] at h
      rw [List.find?_cons_of_pos _ hx]
      exact h
    · rw [List.find?_cons_of_neg _ (by simpa using hx)] at h
      rw [List.find?_cons_of_neg _ (by simpa using hx)]
      exact ih h

theorem get_room_append {st st2 : ServerState} {rid : Nat} {room : Room}
    (h : RoomStore.get_room st rid = some room) (rs : List Room)
    (h2 : st2.rooms = st.rooms ++ rs) :
    RoomStore.get_room st2 rid = some room := by
  unfold RoomStore.get_room at h ⊢
  rw [h2]
  exact find?_append_of_some h rs

theorem applyOp_status_mono {st : ServerState} {rid : Nat} {room : Room}
    (op : Op) (h : RoomStore.get_room st rid = some room) :
    ∃ room', RoomStore.get_room (applyOp st op) rid = some room' ∧
      statusRank room.status ≤ statusRank room'.status := by
  cases op with
  | createRoom req now =>
    obtain ⟨⟨newRoom, -, hrooms⟩, -, -, -⟩ := create_room_spec st req now
    exact ⟨room, get_room_append h [newRoom] hrooms, le_rfl⟩
  | joinRoom rid2 name topic now =>
    simp only [applyOp]
    cases hj : join_room st rid2 name topic now with
    | error e => exact ⟨room, h, le_rfl⟩
    | ok out =>
      obtain ⟨room0, p, st1, st2, -, -, hc, hadd, hout⟩ := join_room_ok_inv hj
      obtain ⟨-, hcp1⟩ := create_player_inv hc
      simp only at hcp1
      have hr1 : st1.rooms = st.rooms := by rw [hcp1]
      have hr2 : out.1.rooms = st.rooms := by
        rw [hout, (add_topic_spec hadd).2.2.1, hr1]
      rw [get_room_congr hr2 rid]
      exact ⟨room, h, le_rfl⟩
  | startGame rid2 tok gen now =>
    cases tok with
    | none => exact ⟨room, h, le_rfl⟩
    | some t =>
      simp only [applyOp]
      cases hs : start_game st rid2 (some t) gen now with
      | error e => exact ⟨room, h, le_rfl⟩
      | ok out =>
        obtain ⟨room0, hroom0, -, hwait0, -, -, -, -, -, -, hmap⟩ :=
          start_game_ok_inv hs
        rw [hmap rid, h]
        refine ⟨_, rfl, ?_⟩
        simp only
        by_cases hb : (room.roomId == rid2) = true
        · rw [if_pos hb]
          have hrid : room.roomId = rid := get_room_roomId h
          have heq : rid = rid2 := by
            rw [← hrid]
            exact eq_of_beq hb
          rw [← heq] at hroom0
          rw [h] at hroom0
          have hre : room = room0 := by
            cases hroom0
            rfl
          show statusRank room.status ≤ statusRank "started"
          rw [hre, hwait0]
          decide
        · rw [if_neg hb]
  | submitAnswer rid2 tok qid ans now =>
    cases tok with
    | none => exact ⟨room, h, le_rfl⟩
    | some t =>
      simp only [applyOp]
      cases hs : submit_answer st rid2 (some t) qid ans now with
      | error e => exact ⟨room, h, le_rfl⟩
      | ok out =>
        have hr := (submit_answer_ok_effect hs).1
        rw [get_room_congr hr rid]
        exact ⟨room, h, le_rfl⟩
  | submitTopic rid2 tok raw gen now =>
    simp only [applyOp]
    cases hs : submit_topic st rid2 tok raw gen now with
    | error e => exact ⟨room, h, le_rfl⟩
    | ok out =>
      obtain ⟨-, -, -, -, -, room0, -, hbr, -⟩ := submit_topic_ok_fields hs
      cases hbr with
      | inl hsame =>
        rw [hsame rid]
        exact ⟨room, h, le_rfl⟩
      | inr hmap =>
        rw [hmap rid, h]
        refine ⟨_, rfl, ?_⟩
        simp only
        by_cases hb : (room.roomId == rid2) = true
        · rw [if_pos hb]
        · rw [if_neg hb]

theorem applyOps_status_mono {st : ServerState} {rid : Nat} {room : Room}
    (ops : List Op) (h : RoomStore.get_room st rid = some room) :
    ∃ room', RoomStore.get_room (applyOps st ops) rid = some room' ∧
      statusRank room.status ≤ statusRank room'.status := by
  induction ops generalizing st room with
  | nil => exact ⟨room, h, le_rfl⟩
  | cons op ops ih =>
    obtain ⟨room1, h1, hle1⟩ := applyOp_status_mono op h
    obtain ⟨room2, h2, hle2⟩ := ih h1
    exact ⟨room2, h2, le_trans hle1 hle2⟩

/-- C4: across every sequence of coordinator operations a room's status
rank (waiting 0 -> started 1 -> finished 2) never decreases, so the
lifecycle only moves forward; and calling start on a room whose status is
not waiting fails with a bad-request error naming the current status
("Room is already <status>") and leaves the server state unchanged. -/
theorem c4_status_monotone_and_start_twice :
    (∀ (st : ServerState) (rid : Nat) (room : Room) (ops : List Op),
      RoomStore.get_room st rid = some room →
      ∃ room', RoomStore.get_room (applyOps st ops) rid = some room' ∧
        statusRank room.status ≤ statusRank room'.status) ∧
    (∀ (st : ServerState) (rid : Nat) (room : Room)
      (gen : List String → Nat → List GenQuestion) (now : Nat),
      RoomStore.get_room st rid = some room → room.status ≠ "waiting" →
      start_game st rid (some room.hostToken) gen now =
        Except.error (.badRequest ("Room is already " ++ room.status)) ∧
      applyOp st (.startGame rid (some room.hostToken) gen now) = st) := by
  refine ⟨fun st rid room ops h => applyOps_status_mono ops h, ?_⟩
  intro st rid room gen now h hns
  have herr : start_game st rid (some room.hostToken) gen now =
      Except.error (.badRequest ("Room is already " ++ room.status)) := by
    unfold start_game
    simp only
    rw [h]
    simp only
    rw [if_pos trivial, if_neg hns]
  refine ⟨herr, ?_⟩
  simp only [applyOp]
  rw [herr]

/-- A room already started, to exercise the start-twice rejection. -/
def c4Room : Room :=
  ⟨0, "R", "H", "tokH", ["Books"], 1, 30, 3, 1, "started", 0, some 1⟩

def c4State : ServerState :=
  { initState with rooms := [c4Room], nextId := 1 }

def c4Gen : List String → Nat → List GenQuestion :=
  fun _ n => List.replicate n ⟨"q4", ["Books"], ["A", "B", "C", "D"], 0, none⟩

theorem c4_witness :
    (∃ room', RoomStore.get_room
        (applyOps c4State [Op.startGame 0 (some "tokH") c4Gen 7]) 0 =
          some room' ∧
      statusRank c4Room.status ≤ statusRank room'.status) ∧
    start_game c4State 0 (some c4Room.hostToken) c4Gen 7 =
      Except.error (.badRequest ("Room is already " ++ c4Room.status)) ∧
    applyOp c4State (.startGame 0 (some c4Room.hostToken) c4Gen 7) = c4State :=
  ⟨c4_status_monotone_and_start_twice.1 c4State 0 c4Room
      [Op.startGame 0 (some "tokH") c4Gen 7] rfl,
    c4_status_monotone_and_start_twice.2 c4State 0 c4Room c4Gen 7 rfl
      (by decide)⟩

/-! ## Score accounting (C3) -/

/-- Total points logged for a player across the ghost award log. -/
def logSum (log : List (Nat × Nat)) (pid : Nat) : Nat :=
  ((log.filter (fun e => e.1 == pid)).map (fun e => e.2)).sum

/-- The score bookkeeping invariant: player ids and logged ids stay below
the freshness counter, player ids are distinct, and every player's total
score equals the sum of the points logged for that player. -/
def ScoreInv (st : ServerState) : Prop :=
  (∀ p ∈ st.players, p.playerId < st.nextId) ∧
  (∀ e ∈ st.scoreLog, e.1 < st.nextId) ∧
  (st.players.map (fun p => p.playerId)).Nodup ∧
  (∀ p ∈ st.players, p.score = logSum st.scoreLog p.playerId)

theorem logSum_eq_zero {log : List (Nat × Nat)} {pid : Nat}
    (h : ∀ e ∈ log, e.1 ≠ pid) : logSum log pid = 0 := by
  unfold logSum
  have hnil : log.filter (fun e => e.1 == pid) = [] := by
    rw [List.filter_eq_nil_iff]
    intro e he
    simpa using h e he
  rw [hnil]
  rfl

theorem logSum_append_self (log : List (Nat × Nat)) (pid c : Nat) :
    logSum (log ++ [(pid, c)]) pid = logSum log pid + c := by
  unfold logSum
  rw [List.filter_append, List.map_append, List.sum_append]
  simp

theorem logSum_append_ne (log : List (Nat × Nat)) {x pid : Nat} (c : Nat)
    (h : x ≠ pid) : logSum (log ++ [(pid, c)]) x = logSum log x := by
  unfold logSum
  rw [List.filter_append, List.map_append, List.sum_append]
  have : [(pid, c)].filter (fun e => e.1 == x) = [] := by
    simp [Ne.symm h]
  rw [this]
  simp

theorem ScoreInv_of_eq {st st' : ServerState} (hInv : ScoreInv st)
    (hp : st'.players = st.players) (hl : st'.scoreLog = st.scoreLog)
    (hn : st.nextId ≤ st'.nextId) : ScoreInv st' := by
  obtain ⟨h1, h2, h3, h4⟩ := hInv
  refine ⟨?_, ?_, ?_, ?_⟩
  · rw [hp]
    intro p hpm
    exact lt_of_lt_of_le (h1 p hpm) hn
  · rw [hl]
    intro e hem
    exact lt_of_lt_of_le (h2 e hem) hn
  · rw [hp]
    exact h3
  · rw [hp, hl]
    exact h4

theorem ScoreInv_append_player {st st' : ServerState} {p : Player}
    (hInv : ScoreInv st)
    (hp : st'.players = st.players ++ [p])
    (hl : st'.scoreLog = st.scoreLog)
    (hid : st.nextId ≤ p.playerId)
    (hsc : p.score = 0)
    (hlt : p.playerId < st'.nextId)
    (hn : st.nextId ≤ st'.nextId) : ScoreInv st' := by
  obtain ⟨h1, h2, h3, h4⟩ := hInv
  refine ⟨?_, ?_, ?_, ?_⟩
  · rw [hp]
    intro q hq
    rcases List.mem_append.mp hq with hq | hq
    · exact lt_of_lt_of_le (h1 q hq) hn
    · rw [List.mem_singleton.mp hq]
      exact hlt
  · rw [hl]
    intro e hem
    exact lt_of_lt_of_le (h2 e hem) hn
  · rw [hp, List.map_append]
    rw [List.nodup_append]
    refine ⟨h3, List.nodup_singleton _, ?_⟩
    intro a ha hb
    simp only [List.map_singleton, List.mem_singleton] at hb
    obtain ⟨q, hq, hqa⟩ := List.mem_map.mp ha
    have : a < st.nextId := hqa ▸ h1 q hq
    omega
  · rw [hp, hl]
    intro q hq
    rcases List.mem_append.mp hq with hq | hq
    · exact h4 q hq
    · rw [List.mem_singleton.mp hq, hsc]
      refine (logSum_eq_zero ?_).symm
      intro e he
      have : e.1 < st.nextId := h2 e he
      omega

theorem ScoreInv_award {st st' : ServerState} {pid : Nat} {pl0 pl' : Player}
    (hInv : ScoreInv st)
    (hpid0 : PlayerStore.get_player_by_id st pid = some pl0)
    (hid : pl0.playerId = pid)
    (hplid : pl'.playerId = pl0.playerId)
    (hscore : pl'.score = pl0.score + pointsPerCorrectAnswer)
    (hp : st'.players = st.players.map (updPlayer pid pl'))
    (hl : st'.scoreLog = st.scoreLog ++ [(pid, pointsPerCorrectAnswer)])
    (hn : st.nextId ≤ st'.nextId) : ScoreInv st' := by
  obtain ⟨h1, h2, h3, h4⟩ := hInv
  have hmem0 : pl0 ∈ st.players := List.mem_of_find?_eq_some hpid0
  have hplid' : pl'.playerId = pid := hplid.trans hid
  have hpid_same : ∀ q : Player, (updPlayer pid pl' q).playerId = q.playerId :=
    updPlayer_playerId hplid'
  refine ⟨?_, ?_, ?_, ?_⟩
  · rw [hp]
    intro q hq
    obtain ⟨q0, hq0, hq0e⟩ := List.mem_map.mp hq
    have : q.playerId = q0.playerId := by rw [← hq0e]; exact hpid_same q0
    rw [this]
    exact lt_of_lt_of_le (h1 q0 hq0) hn
  · rw [hl]
    intro e hem
    rcases List.mem_append.mp hem with hem | hem
    · exact lt_of_lt_of_le (h2 e hem) hn
    · rw [List.mem_singleton.mp hem]
      have : pl0.playerId < st.nextId := h1 pl0 hmem0
      simp only
      omega
  · rw [hp, List.map_map]
    have : (fun p : Player => p.playerId) ∘ updPlayer pid pl' =
        fun p : Player => p.playerId := by
      funext q
      exact hpid_same q
    rw [this]
    exact h3
  · rw [hp, hl]
    intro q hq
    obtain ⟨q0, hq0, hq0e⟩ := List.mem_map.mp hq
    by_cases hcase : q0.playerId = pid
    · have hq0eq : q0 = pl0 := by
        refine List.inj_on_of_nodup_map h3 hq0 hmem0 ?_
        rw [hcase, hid]
      have hqpl : q = pl' := by
        rw [← hq0e]
        unfold updPlayer
        rw [if_pos (beq_iff_eq.mpr hcase)]
      rw [hqpl, hplid', hscore, logSum_append_self]
      rw [hq0eq] at hcase
      rw [h4 pl0 hmem0, hid]
    · have hqq0 : q = q0 := by
        rw [← hq0e]
        unfold updPlayer
        rw [if_neg (by simpa using hcase)]
      rw [hqq0, logSum_append_ne _ _ hcase]
      exact h4 q0 hq0

theorem ScoreInv_applyOp {st : ServerState} (op : Op) (hInv : ScoreInv st) :
    ScoreInv (applyOp st op) := by
  cases op with
  | createRoom req now =>
    obtain ⟨-, hsl, hnid, hbr⟩ := create_room_spec st req now
    cases hbr with
    | inl hp => exact ScoreInv_of_eq hInv hp hsl hnid
    | inr hex =>
      obtain ⟨p, hsc, hge, hlt, hp⟩ := hex
      exact ScoreInv_append_player hInv hp hsl hge hsc hlt hnid
  | joinRoom rid2 name topic now =>
    simp only [applyOp]
    cases hj : join_room st rid2 name topic now with
    | error e => exact hInv
    | ok out =>
      obtain ⟨room0, p, st1, st2, -, -, hc, hadd, hout⟩ := join_room_ok_inv hj
      obtain ⟨hcp2, hcp1⟩ := create_player_inv hc
      simp only at hcp1 hcp2
      have hp1 : st1.players = st.players ++ [p] := by rw [hcp1]
      have hl1 : st1.scoreLog = st.scoreLog := by rw [hcp1]
      have hid : st.nextId ≤ p.playerId := by
        rw [hcp2]
      have hsc : p.score = 0 := by rw [hcp2]
      have hlt : p.playerId < st1.nextId := by
        rw [hcp2, hcp1]
        exact Nat.lt_succ_self _
      have hn1 : st.nextId ≤ st1.nextId := by
        rw [hcp1]
        exact Nat.le_succ _
      have inv1 := ScoreInv_append_player hInv hp1 hl1 hid hsc hlt hn1
      obtain ⟨-, -, -, hp2, -, -, -, hsl2, hnid2⟩ := add_topic_spec hadd
      have inv2 := ScoreInv_of_eq inv1 hp2 hsl2 (le_of_eq hnid2.symm)
      show ScoreInv out.1
      exact hout ▸ inv2
  | startGame rid2 tok gen now =>
    cases tok with
    | none => exact hInv
    | some t =>
      simp only [applyOp]
      cases hs : start_game st rid2 (some t) gen now with
      | error e => exact hInv
      | ok out =>
        obtain ⟨room0, -, -, -, hp, -, -, -, hl, hn, -⟩ := start_game_ok_inv hs
        exact ScoreInv_of_eq hInv hp hl hn
  | submitAnswer rid2 tok qid ans now =>
    cases tok with
    | none => exact hInv
    | some t =>
      simp only [applyOp]
      cases hs : submit_answer st rid2 (some t) qid ans now with
      | error e => exact hInv
      | ok out =>
        obtain ⟨-, -, -, hnid, hdisj⟩ := submit_answer_ok_effect hs
        have hn : st.nextId ≤ out.1.nextId := le_of_eq hnid.symm
        cases hdisj with
        | inl hpl => exact ScoreInv_of_eq hInv hpl.1 hpl.2 hn
        | inr hex =>
          obtain ⟨pid, pl0, pl', hpid0, hid0, hplid, hscore, hp, hl⟩ := hex
          exact ScoreInv_award hInv hpid0 hid0 hplid hscore hp hl hn
  | submitTopic rid2 tok raw gen now =>
    simp only [applyOp]
    cases hs : submit_topic st rid2 tok raw gen now with
    | error e => exact hInv
    | ok out =>
      obtain ⟨hp, hl, -, -, hn, -⟩ := submit_topic_ok_fields hs
      exact ScoreInv_of_eq hInv hp hl hn

theorem ScoreInv_applyOps {st : ServerState} (ops : List Op)
    (hInv : ScoreInv st) : ScoreInv (applyOps st ops) := by
  induction ops generalizing st with
  | nil => exact hInv
  | cons op ops ih => exact ih (ScoreInv_applyOp op hInv)

theorem ScoreInv_initState : ScoreInv initState :=
  ⟨fun p hp => absurd hp (List.not_mem_nil p),
   fun e he => absurd he (List.not_mem_nil e),
   List.nodup_nil,
   fun p hp => absurd hp (List.not_mem_nil p)⟩

/-- C3 (amended): after any sequence of operations from the empty state,
every player's total score equals the sum of the points logged for that
player's correct answers; and a single award of positive points on a
question with a non-empty duplicate-free topic list raises the player's
total score by the points while raising the per-topic scores by the full
points for EACH topic, so the per-topic increases sum to
points * topics.length rather than to the points added. -/
theorem c3_score_invariants :
    (∀ ops : List Op, ∀ p ∈ (applyOps initState ops).players,
      p.score = logSum (applyOps initState ops).scoreLog p.playerId) ∧
    (∀ (st : ServerState) (pid points : Nat) (topics : List String)
       (pr : ServerState × Player) (pl0 : Player),
      PlayerStore.get_player_by_id st pid = some pl0 →
      PlayerStore.update_player_score st pid points topics = Except.ok pr →
      topics ≠ [] → 0 < points → topics.Nodup →
      pr.2.score = pl0.score + points ∧
      (topics.map (fun t => dictGetD pr.2.topicScore t)).sum =
        (topics.map (fun t => dictGetD pl0.topicScore t)).sum +
          points * topics.length) := by
  refine ⟨?_, ?_⟩
  · intro ops
    exact (ScoreInv_applyOps ops ScoreInv_initState).2.2.2
  · intro st pid points topics pr pl0 hpid hupd hne hpos hnd
    rw [update_player_score_ok hpid] at hupd
    simp only [Except.ok.injEq] at hupd
    subst hupd
    refine ⟨rfl, ?_⟩
    show (topics.map (fun t => dictGetD
        (if topics ≠ [] ∧ 0 < points then
          bumpTopicScores pl0.topicScore topics points
        else pl0.topicScore) t)).sum = _
    rw [if_pos ⟨hne, hpos⟩]
    exact sum_dictGetD_bump pl0.topicScore topics points hnd

/-- A single joined player with no scores yet. -/
def c3Player : Player := ⟨0, 0, "P", "tokP", 0, [], 0⟩

def c3St : ServerState := { initState with players := [c3Player], nextId := 1 }

/-- The player after one 100-point award on a two-topic question. -/
def c3Pl2 : Player :=
  ⟨0, 0, "P", "tokP", 100, [("Movies", 100), ("Books", 100)], 0⟩

def c3St2 : ServerState := { initState with players := [c3Pl2], nextId := 1 }

theorem c3_counterexample :
    PlayerStore.update_player_score c3St 0 100 ["Movies", "Books"] =
      Except.ok (c3St2, c3Pl2) ∧
    c3Pl2.score = c3Player.score + 100 ∧
    (["Movies", "Books"].map (fun t => dictGetD c3Pl2.topicScore t)).sum =
      200 := by
  refine ⟨?_, rfl, rfl⟩
  rfl

theorem c3_witness :
    (∀ p ∈ (applyOps initState []).players,
      p.score = logSum (applyOps initState []).scoreLog p.playerId) ∧
    ((c3St2, c3Pl2).2.score = c3Player.score + 100 ∧
     (["Movies", "Books"].map
        (fun t => dictGetD (c3St2, c3Pl2).2.topicScore t)).sum =
       (["Movies", "Books"].map
          (fun t => dictGetD c3Player.topicScore t)).sum +
         100 * (["Movies", "Books"] : List String).length) :=
  ⟨c3_score_invariants.1 [],
   c3_score_invariants.2 c3St 0 100 ["Movies", "Books"] (c3St2, c3Pl2)
     c3Player rfl rfl (by decide) (by decide) (by decide)⟩

/-! ## Forward run of a quorum-reaching submit_topic (C1) -/

theorem submit_topic_quorum_run {st : ServerState} {rid : Nat}
    {tok raw : String} {room : Room} {player : Player}
    (gen : List String → Nat → List GenQuestion) (now : Nat)
    (hroom : RoomStore.get_room st rid = some room)
    (hpl : PlayerStore.get_player_by_token st tok = some player)
    (hprid : player.roomId = rid)
    (hne : pstrip raw ≠ "")
    (hlen : ¬ 50 < (pstrip raw).length)
    (hnew : pstrip raw ∉ TopicStore.topic_set st rid (room.currentRound + 1))
    (hquorum : (PlayerStore.get_players_by_room st rid).length ≤
      (TopicStore.get_topics st rid (room.currentRound + 1)).length + 1) :
    ∃ out ts,
      submit_topic st rid (some tok) raw gen now = Except.ok out ∧
      ts.length =
        (TopicStore.get_topics st rid (room.currentRound + 1)).length + 1 ∧
      out.2.2.2 = [(ts, room.questionsPerRound)] ∧
      out.2.2.1 = [
        Event.topicSubmitted player.playerId player.playerName (pstrip raw) ts
          ts.length (PlayerStore.get_players_by_room st rid).length,
        Event.allTopicsSubmitted ts (room.currentRound + 1),
        Event.roundChanged now (room.currentRound + 1)
          (gen ts room.questionsPerRound).length] ∧
      (∃ room', RoomStore.get_room out.1 rid = some room' ∧
        room'.currentRound = room.currentRound + 1 ∧
        room'.startedAt = some now) ∧
      (QuestionStore.get_questions_by_room_and_round out.1 rid
          (room.currentRound + 1)).length =
        (QuestionStore.get_questions_by_room_and_round st rid
          (room.currentRound + 1)).length +
          (gen ts room.questionsPerRound).length := by
  obtain ⟨st1, hadd⟩ : ∃ st1,
      TopicStore.add_topic st rid (pstrip raw) (room.currentRound + 1) =
        .ok st1 := by
    unfold TopicStore.add_topic
    rw [hroom]
    exact ⟨_, rfl⟩
  obtain ⟨hset1, -, hrooms1, hp1, hq1, -, -, -, -⟩ := add_topic_spec hadd
  simp only [pstrip_idem] at hset1
  rw [if_neg hnew] at hset1
  have hlen1 : (TopicStore.get_topics st1 rid (room.currentRound + 1)).length =
      (TopicStore.get_topics st rid (room.currentRound + 1)).length + 1 := by
    rw [length_get_topics, length_get_topics, hset1, List.filter_append,
      List.length_append]
    have : ([pstrip raw].filter (fun t => t ≠ "")).length = 1 := by
      simp [hne]
    rw [this]
  have hplayers1 : PlayerStore.get_players_by_room st1 rid =
      PlayerStore.get_players_by_room st rid :=
    get_players_by_room_congr hp1 rid
  have hqmet : topicQuorumMet
      (TopicStore.get_topics st1 rid (room.currentRound + 1)).length
      (PlayerStore.get_players_by_room st1 rid).length = true := by
    unfold topicQuorumMet
    rw [hlen1, hplayers1]
    exact decide_eq_true hquorum
  have hg2 : RoomStore.get_room
      (QuestionStore.create_questions st1 rid (room.currentRound + 1)
        (gen (TopicStore.get_topics st1 rid (room.currentRound + 1))
          room.questionsPerRound)).1 rid = some room := by
    have h0 : (QuestionStore.create_questions st1 rid (room.currentRound + 1)
        (gen (TopicStore.get_topics st1 rid (room.currentRound + 1))
          room.questionsPerRound)).1.rooms = st.rooms := by
      show st1.rooms = st.rooms
      exact hrooms1
    rw [get_room_congr h0 rid]
    exact hroom
  obtain ⟨st3, hupd⟩ : ∃ st3, RoomStore.update_room_round
      (QuestionStore.create_questions st1 rid (room.currentRound + 1)
        (gen (TopicStore.get_topics st1 rid (room.currentRound + 1))
          room.questionsPerRound)).1
      rid (room.currentRound + 1) (some now) = .ok st3 := by
    unfold RoomStore.update_room_round
    rw [hg2]
    exact ⟨_, rfl⟩
  have hrun : submit_topic st rid (some tok) raw gen now =
      Except.ok (st3,
        ⟨true, (TopicStore.get_topics st1 rid (room.currentRound + 1)).length,
          (PlayerStore.get_players_by_room st1 rid).length⟩,
        [Event.topicSubmitted player.playerId player.playerName (pstrip raw)
            (TopicStore.get_topics st1 rid (room.currentRound + 1))
            (TopicStore.get_topics st1 rid (room.currentRound + 1)).length
            (PlayerStore.get_players_by_room st1 rid).length,
          Event.allTopicsSubmitted
            (TopicStore.get_topics st1 rid (room.currentRound + 1))
            (room.currentRound + 1),
          Event.roundChanged now (room.currentRound + 1)
            (gen (TopicStore.get_topics st1 rid (room.currentRound + 1))
              room.questionsPerRound).length],
        [(TopicStore.get_topics st1 rid (room.currentRound + 1),
          room.questionsPerRound)]) := by
    unfold submit_topic
    simp only
    rw [hroom]
    simp only
    rw [hpl]
    simp only
    rw [if_pos hprid, if_neg hne, if_neg hlen, hadd]
    simp only
    rw [if_pos hqmet, hupd]
    rfl
  obtain ⟨hp3, hq3, -, -, -, -, -, hrooms3⟩ := update_room_round_spec hupd
  refine ⟨_, TopicStore.get_topics st1 rid (room.currentRound + 1), hrun,
    hlen1, rfl, (by rw [hplayers1]), ?_, ?_⟩
  · rw [hrooms3 rid, hg2]
    refine ⟨_, rfl, ?_, ?_⟩
    · simp only
      rw [if_pos (beq_iff_eq.mpr (get_room_roomId hroom))]
    · simp only
      rw [if_pos (beq_iff_eq.mpr (get_room_roomId hroom))]
      rfl
  · show (QuestionStore.get_questions_by_room_and_round st3 rid
        (room.currentRound + 1)).length = _
    unfold QuestionStore.get_questions_by_room_and_round
    rw [length_sortAscBy, length_sortAscBy, hq3]
    show ((st1.questions ++ buildQuestions rid (room.currentRound + 1)
        (gen (TopicStore.get_topics st1 rid (room.currentRound + 1))
          room.questionsPerRound) st1.nextId 0).filter
        (fun q => q.roomId == rid && q.round == room.currentRound + 1)).length = _
    rw [List.filter_append, List.length_append, hq1]
    have hall : ((buildQuestions rid (room.currentRound + 1)
        (gen (TopicStore.get_topics st1 rid (room.currentRound + 1))
          room.questionsPerRound) st1.nextId 0).filter
        (fun q => q.roomId == rid && q.round == room.currentRound + 1)) =
        buildQuestions rid (room.currentRound + 1)
          (gen (TopicStore.get_topics st1 rid (room.currentRound + 1))
            room.questionsPerRound) st1.nextId 0 := by
      rw [List.filter_eq_self]
      intro q hq
      obtain ⟨h1, h2⟩ := mem_buildQuestions hq
      simp [h1, h2]
    rw [hall, length_buildQuestions]

/-- C1: on a room where the players of the room number P >= 1 and P - 1
distinct topics are already recorded for round R = currentRound + 1, a
successful submission of a new distinct topic advances the round exactly
once: the response carries exactly one generation call producing
questionsPerRound round-R questions, the events are topic_submitted then
all_topics_submitted then round_changed in that order, the room's
currentRound becomes R with startedAt re-stamped to the call time, and the
round-R question list grows by exactly questionsPerRound; any later
successful submission leaves the round-R question list untouched. -/
theorem c1_topic_quorum_round_advance
    {st : ServerState} {rid : Nat} {tok raw : String} {room : Room}
    {player : Player} (gen : List String → Nat → List GenQuestion) (now : Nat)
    (hroom : RoomStore.get_room st rid = some room)
    (hpl : PlayerStore.get_player_by_token st tok = some player)
    (hprid : player.roomId = rid)
    (hne : pstrip raw ≠ "")
    (hlen : ¬ 50 < (pstrip raw).length)
    (hnew : pstrip raw ∉ TopicStore.topic_set st rid (room.currentRound + 1))
    (hP : 1 ≤ (PlayerStore.get_players_by_room st rid).length)
    (hprev : (TopicStore.get_topics st rid (room.currentRound + 1)).length =
      (PlayerStore.get_players_by_room st rid).length - 1)
    (hgen : ∀ ts n, (gen ts n).length = n) :
    ∃ out ts,
      submit_topic st rid (some tok) raw gen now = Except.ok out ∧
      out.2.2.2 = [(ts, room.questionsPerRound)] ∧
      out.2.2.1 = [
        Event.topicSubmitted player.playerId player.playerName (pstrip raw) ts
          ts.length (PlayerStore.get_players_by_room st rid).length,
        Event.allTopicsSubmitted ts (room.currentRound + 1),
        Event.roundChanged now (room.currentRound + 1)
          room.questionsPerRound] ∧
      (∃ room', RoomStore.get_room out.1 rid = some room' ∧
        room'.currentRound = room.currentRound + 1 ∧
        room'.startedAt = some now) ∧
      (QuestionStore.get_questions_by_room_and_round out.1 rid
          (room.currentRound + 1)).length =
        (QuestionStore.get_questions_by_room_and_round st rid
          (room.currentRound + 1)).length + room.questionsPerRound ∧
      (∀ (raw2 : String) (tok2 : Option String)
         (gen2 : List String → Nat → List GenQuestion) (now2 : Nat)
         (out2 : ServerState × SubmitTopicResponse × List Event × List GenCall),
        submit_topic out.1 rid tok2 raw2 gen2 now2 = Except.ok out2 →
        QuestionStore.get_questions_by_room_and_round out2.1 rid
            (room.currentRound + 1) =
          QuestionStore.get_questions_by_room_and_round out.1 rid
            (room.currentRound + 1)) := by
  have hquorum : (PlayerStore.get_players_by_room st rid).length ≤
      (TopicStore.get_topics st rid (room.currentRound + 1)).length + 1 := by
    omega
  obtain ⟨out, ts, hok, hts, hcalls, hev, ⟨room', hroom', hcr', hsa'⟩, hqlen⟩ :=
    submit_topic_quorum_run gen now hroom hpl hprid hne hlen hnew hquorum
  refine ⟨out, ts, hok, hcalls, ?_, ⟨room', hroom', hcr', hsa'⟩, ?_, ?_⟩
  · rw [hev, hgen]
  · rw [hqlen, hgen]
  · intro raw2 tok2 gen2 now2 out2 h2
    obtain ⟨-, -, -, -, -, room0, hroom0, -, hqpres⟩ :=
      submit_topic_ok_fields h2
    have hr0 : room0 = room' := by
      rw [hroom'] at hroom0
      cases hroom0
      rfl
    exact hqpres rid (room.currentRound + 1) (by rw [hr0, hcr'])

/-- A started one-player room with no topics yet submitted for round 2. -/
def c1Room : Room :=
  ⟨0, "R", "H", "tokH", ["Books"], 2, 30, 3, 1, "started", 0, some 1⟩

def c1Player : Player := ⟨0, 0, "P", "tokP", 0, [], 0⟩

def c1State : ServerState :=
  { initState with rooms := [c1Room], players := [c1Player], nextId := 1 }

def c1Gen : List String → Nat → List GenQuestion :=
  fun ts n => List.replicate n ⟨"q1", ts, ["A", "B", "C", "D"], 0, none⟩

theorem c1_witness :
    ∃ out ts,
      submit_topic c1State 0 (some "tokP") "Jazz" c1Gen 7 = Except.ok out ∧
      out.2.2.2 = [(ts, c1Room.questionsPerRound)] ∧
      out.2.2.1 = [
        Event.topicSubmitted c1Player.playerId c1Player.playerName
          (pstrip "Jazz") ts ts.length
          (PlayerStore.get_players_by_room c1State 0).length,
        Event.allTopicsSubmitted ts (c1Room.currentRound + 1),
        Event.roundChanged 7 (c1Room.currentRound + 1)
          c1Room.questionsPerRound] ∧
      (∃ room', RoomStore.get_room out.1 0 = some room' ∧
        room'.currentRound = c1Room.currentRound + 1 ∧
        room'.startedAt = some 7) ∧
      (QuestionStore.get_questions_by_room_and_round out.1 0
          (c1Room.currentRound + 1)).length =
        (QuestionStore.get_questions_by_room_and_round c1State 0
          (c1Room.currentRound + 1)).length + c1Room.questionsPerRound ∧
      (∀ (raw2 : String) (tok2 : Option String)
         (gen2 : List String → Nat → List GenQuestion) (now2 : Nat)
         (out2 : ServerState × SubmitTopicResponse × List Event × List GenCall),
        submit_topic out.1 0 tok2 raw2 gen2 now2 = Except.ok out2 →
        QuestionStore.get_questions_by_room_and_round out2.1 0
            (c1Room.currentRound + 1) =
          QuestionStore.get_questions_by_room_and_round out.1 0
            (c1Room.currentRound + 1)) :=
  c1_topic_quorum_round_advance c1Gen 7 rfl rfl rfl (by decide) (by decide)
    (by decide) (by decide) (by decide)
    (fun ts n => by simp [c1Gen])

/-- C8: in a room whose leaderboard holds exactly three players, where two
players have topic score 100 on the single topic "Movies" and one has 0,
the computed stats carry at most 3 awards (the cap for rooms with at most
3 players) and include the "Movies" shared-interest pair award naming
exactly the two 100-scorers in leaderboard order; the 0-scorer is excluded
because both members of a qualifying pair need positive scores. -/
theorem c8_movies_pair_award
    {st : ServerState} {rid : Nat} {room : Room} {p1 p2 p3 : Player}
    (hroom : RoomStore.get_room st rid = some room)
    (hlb : PlayerStore.get_leaderboard st rid = [p1, p2, p3])
    (hts1 : p1.topicScore = [("Movies", 100)])
    (hts2 : p2.topicScore = [("Movies", 100)])
    (hts3 : p3.topicScore = [("Movies", 0)]) :
    ∃ resp, compute_game_stats st rid = Except.ok resp ∧
      resp.awards.length ≤ 3 ∧
      GameStatsAward.mk [p1.playerId, p2.playerId]
        [p1.playerName, p2.playerName]
        "Sharing a love for Movies" (some "Movies") ∈ resp.awards := by
  have htsc : buildTopicScores [p1, p2, p3] =
      [("Movies", [(p1, 100), (p2, 100), (p3, 0)])] := by
    unfold buildTopicScores
    simp only [List.foldl]
    rw [hts1, hts2, hts3]
    rfl
  unfold compute_game_stats
  rw [hroom]
  simp only
  rw [hlb]
  rw [if_neg (by simp)]
  rw [htsc]
  refine ⟨_, rfl, ?_, ?_⟩
  · exact List.length_take_le _ _
  · by_cases hk : (List.filter
        (fun p => p.score == (List.map (fun p => p.score) [p1, p2, p3]).foldl
          max 0) [p1, p2, p3]).isEmpty = true
    · rw [if_pos hk]
      exact List.Mem.tail _ (List.Mem.head _)
    · rw [if_neg hk]
      exact List.Mem.tail _ (List.Mem.tail _ (List.Mem.head _))

/-- A finished three-player room on the single topic Movies: two players
at 100 points on it, one at 0. -/
def c8Room : Room :=
  ⟨0, "R", "H", "tokH", ["Movies"], 1, 30, 1, 1, "finished", 0, some 1⟩

def c8P1 : Player := ⟨1, 0, "A", "t1", 100, [("Movies", 100)], 0⟩

def c8P2 : Player := ⟨2, 0, "B", "t2", 100, [("Movies", 100)], 0⟩

def c8P3 : Player := ⟨3, 0, "C", "t3", 0, [("Movies", 0)], 0⟩

def c8State : ServerState :=
  { initState with
    rooms := [c8Room],
    players := [c8P1, c8P2, c8P3],
    nextId := 4 }

theorem c8_witness :
    ∃ resp, compute_game_stats c8State 0 = Except.ok resp ∧
      resp.awards.length ≤ 3 ∧
      GameStatsAward.mk [c8P1.playerId, c8P2.playerId]
        [c8P1.playerName, c8P2.playerName]
        "Sharing a love for Movies" (some "Movies") ∈ resp.awards :=
  c8_movies_pair_award rfl rfl rfl rfl rfl
